import Mathlib

/-!
Verification of the SOC2 compliance API service
(`src/examples/soc2-api-endpoint.py`).

The Python source is shallowly embedded: every handler becomes a pure
Lean function over explicit inputs (auth header, parsed request body,
current time, the storage outcome and the stored table), and the
external collaborators (Python `str.replace`, `datetime.fromisoformat`
and `datetime.isoformat`, the SQL queries run against the append-only
scan table) are modelled by executable Lean functions that follow the
documented behaviour those calls rely on.
-/

/-! ### Digit strings

Helpers for the fixed-width decimal fields of ISO-8601 timestamps
(`datetime.isoformat` prints zero-padded fields; `fromisoformat`
reads them back). -/

/-- The decimal digit character for `v < 10`. -/
def digC (v : Nat) : Char := Char.ofNat (48 + v)

/-- Zero-padded base-10 rendering of `v` using exactly `n` digits
(most significant first), as `datetime.isoformat` prints fields. -/
def padDigits : Nat → Nat → List Char
  | 0, _ => []
  | n + 1, v => padDigits n (v / 10) ++ [digC (v % 10)]

/-- Numeric value of a digit string (most significant first). -/
def digitsVal (ds : List Char) : Nat :=
  ds.foldl (fun a c => 10 * a + (c.toNat - 48)) 0

/-- Read exactly `n` decimal digits from the front of `cs`, returning
the value and the rest; `none` if fewer than `n` digits are available. -/
def readN (n : Nat) (cs : List Char) : Option (Nat × List Char) :=
  let pre := cs.take n
  if pre.length = n ∧ pre.all Char.isDigit then
    some (digitsVal pre, cs.drop n)
  else
    none

/-- Consume one expected character from the front of a list. -/
def expectC (c : Char) : List Char → Option (List Char)
  | [] => none
  | x :: xs => if x = c then some xs else none

/-! ### The Python `datetime` model

`receive_security_scan` calls `datetime.fromisoformat` on the
(`'Z'`-normalised) metadata timestamp and `datetime.utcnow().isoformat()`
for the default; `get_application_status` prints the stored timestamp
with `.isoformat()`.  Naive datetimes are modelled as their seven
calendar fields; a parsed UTC offset is validated and then discarded,
matching the way the service only ever compares and echoes wall-clock
instants. -/

structure PyDateTime where
  year : Nat
  month : Nat
  day : Nat
  hour : Nat
  minute : Nat
  second : Nat
  microsecond : Nat
deriving DecidableEq, Repr

/-- Gregorian leap-year rule used by `datetime`'s date validation. -/
def isLeap (y : Nat) : Bool :=
  (y % 4 = 0 && y % 100 ≠ 0) || y % 400 = 0

/-- Number of days in a month, as validated by the `datetime` constructor. -/
def daysInMonth (y m : Nat) : Nat :=
  if m = 2 then (if isLeap y then 29 else 28)
  else if m = 4 ∨ m = 6 ∨ m = 9 ∨ m = 11 then 30
  else 31

/-- Field ranges accepted by the `datetime` constructor. -/
def PyDateTime.isValid (d : PyDateTime) : Bool :=
  1 ≤ d.year && d.year ≤ 9999 &&
  1 ≤ d.month && d.month ≤ 12 &&
  1 ≤ d.day && d.day ≤ daysInMonth d.year d.month &&
  d.hour < 24 && d.minute < 60 && d.second < 60 &&
  d.microsecond < 1000000

/-- Character list produced by `datetime.isoformat()` on a naive value:
`YYYY-MM-DDTHH:MM:SS`, extended with `.ffffff` when the microsecond
field is nonzero (Python omits the fraction when it is zero). -/
def isoformatL (d : PyDateTime) : List Char :=
  padDigits 4 d.year ++ '-' :: padDigits 2 d.month ++ '-' :: padDigits 2 d.day ++
  'T' :: padDigits 2 d.hour ++ ':' :: padDigits 2 d.minute ++ ':' :: padDigits 2 d.second ++
  (if d.microsecond = 0 then [] else '.' :: padDigits 6 d.microsecond)

/-- String form of `datetime.isoformat()`. -/
def isoformat (d : PyDateTime) : String :=
  String.mk (isoformatL d)

/-- Parse an optional trailing UTC offset `±HH:MM` (validated, then
discarded: the service never uses the offset of a parsed timestamp).
Fails unless the remaining input is empty or a well-formed offset. -/
def parseTzTail (cs : List Char) : Option Unit :=
  match cs with
  | [] => some ()
  | c :: rest =>
    if c = '+' ∨ c = '-' then
      match readN 2 rest with
      | none => none
      | some (oh, rest1) =>
        match expectC ':' rest1 with
        | none => none
        | some rest2 =>
          match readN 2 rest2 with
          | none => none
          | some (om, rest3) =>
            if oh < 24 ∧ om < 60 ∧ rest3 = [] then some () else none
    else none

/-- Parse the fraction-and-offset tail after the seconds field:
empty, `.fff`, `.ffffff`, each optionally followed by a UTC offset. -/
def parseFracTail (cs : List Char) : Option Nat :=
  match cs with
  | [] => some 0
  | c :: rest =>
    if c = '.' then
      let ds := rest.takeWhile Char.isDigit
      let tail := rest.dropWhile Char.isDigit
      if ds.length = 6 then
        match parseTzTail tail with
        | some _ => some (digitsVal ds)
        | none => none
      else if ds.length = 3 then
        match parseTzTail tail with
        | some _ => some (digitsVal ds * 1000)
        | none => none
      else none
    else
      match parseTzTail cs with
      | some _ => some 0
      | none => none

/-- Parse the time-of-day part `HH[:MM[:SS[.fff[fff]]]][±HH:MM]`
accepted by `datetime.fromisoformat` before Python 3.11. -/
def parseTimePart (y mo d : Nat) (cs : List Char) : Option PyDateTime :=
  match readN 2 cs with
  | none => none
  | some (h, rest) =>
    match rest with
    | ':' :: rest1 =>
      (match readN 2 rest1 with
       | none => none
       | some (mi, rest2) =>
         match rest2 with
         | ':' :: rest3 =>
           (match readN 2 rest3 with
            | none => none
            | some (s, rest4) =>
              match parseFracTail rest4 with
              | none => none
              | some us =>
                if h < 24 ∧ mi < 60 ∧ s < 60 ∧ us < 1000000 then
                  some ⟨y, mo, d, h, mi, s, us⟩
                else none)
         | _ =>
           match parseTzTail rest2 with
           | none => none
           | some _ => if h < 24 ∧ mi < 60 then some ⟨y, mo, d, h, mi, 0, 0⟩ else none)
    | _ =>
      match parseTzTail rest with
      | none => none
      | some _ => if h < 24 then some ⟨y, mo, d, h, 0, 0, 0⟩ else none

/-- Model of `datetime.fromisoformat` (character-list level): a full
`YYYY-MM-DD` date, optionally followed by a single separator character
and a time part; raises (returns `none`) on anything else, including
out-of-range calendar fields. -/
def fromisoformatL (cs : List Char) : Option PyDateTime :=
  match readN 4 cs with
  | none => none
  | some (y, rest0) =>
    match expectC '-' rest0 with
    | none => none
    | some rest1 =>
      match readN 2 rest1 with
      | none => none
      | some (mo, rest2) =>
        match expectC '-' rest2 with
        | none => none
        | some rest3 =>
          match readN 2 rest3 with
          | none => none
          | some (d, rest4) =>
            if 1 ≤ y ∧ 1 ≤ mo ∧ mo ≤ 12 ∧ 1 ≤ d ∧ d ≤ daysInMonth y mo then
              match rest4 with
              | [] => some ⟨y, mo, d, 0, 0, 0, 0⟩
              | _sep :: rest5 => parseTimePart y mo d rest5
            else none

/-- Model of `datetime.fromisoformat` on strings. -/
def fromisoformat (s : String) : Option PyDateTime :=
  fromisoformatL s.toList

/-- Model of Python `str.replace('Z', '+00:00')` (line 114 of the
source): every `'Z'` character is replaced. -/
def replaceZL : List Char → List Char
  | [] => []
  | c :: cs =>
    if c = 'Z' then '+' :: '0' :: '0' :: ':' :: '0' :: '0' :: replaceZL cs
    else c :: replaceZL cs

/-- String form of the `'Z'`→`'+00:00'` normalisation. -/
def replaceZ (s : String) : String :=
  String.mk (replaceZL s.toList)

/-- Total order key for timestamps: the SQL `ORDER BY timestamp` /
`timestamp >= cutoff` comparisons order stored datetimes
field-lexicographically, which this injective (on valid datetimes)
mixed-radix encoding realises. -/
def tkey (d : PyDateTime) : Nat :=
  ((((((d.year * 13 + d.month) * 32 + d.day) * 24 + d.hour) * 60 + d.minute) * 60
      + d.second) * 1000000) + d.microsecond

/-! ### JSON values

The request bodies, the stored `scan_metadata_json` column and the
JSON responses are all finite JSON documents; numbers are integers
(the service only ever reads and stores integer counters). -/

inductive JVal where
  | null : JVal
  | bool : Bool → JVal
  | int : Int → JVal
  | str : String → JVal
  | arr : List JVal → JVal
  | obj : List (String × JVal) → JVal
deriving Repr

/-- First binding of key `k` in an object's field list (Python's
`json.loads` yields dictionaries with unique keys). -/
def lookupKV (k : String) : List (String × JVal) → Option JVal
  | [] => none
  | (k', v) :: rest => if k' = k then some v else lookupKV k rest

/-- Python truthiness of a parsed JSON document, as tested by
`if not data:` on line 85: `None`, `False`, `0`, `''`, `[]` and `{}`
are falsy. -/
def JVal.truthy : JVal → Bool
  | .null => false
  | .bool b => b
  | .int n => n ≠ 0
  | .str s => s ≠ ""
  | .arr xs => !xs.isEmpty
  | .obj kvs => !kvs.isEmpty

/-- Python `d.get(k, default)`: raises `AttributeError` (modelled as
`Except.error`) when the receiver is not a dictionary. -/
def pyGet (j : JVal) (k : String) (dflt : JVal) : Except Unit JVal :=
  match j with
  | .obj kvs => .ok ((lookupKV k kvs).getD dflt)
  | _ => .error ()

/-- A value used as a Python string (`.replace` is called on it):
anything else raises `AttributeError`. -/
def asPyStr : JVal → Except Unit String
  | .str s => .ok s
  | _ => .error ()

/-- A value used in Python integer addition: `bool` is an `int`
subclass (`True` counts as 1); anything else raises `TypeError`. -/
def asPyInt : JVal → Except Unit Int
  | .int n => .ok n
  | .bool b => .ok (if b then 1 else 0)
  | _ => .error ()

/-! ### The credential check (`validate_api_key`, lines 54–61)

Line 56 normalises the `Authorization` header with
`.replace('Bearer ', '')`, which deletes every non-overlapping
occurrence of the seven characters `'Bearer '`, scanning left to
right; lines 59–61 then compare the result against the secret. -/

/-- The pattern removed from the `Authorization` header. -/
def bearerChars : List Char := ['B', 'e', 'a', 'r', 'e', 'r', ' ']

/-- Whether `pat` occurs at the head of `l`. -/
def leadMatch : List Char → List Char → Bool
  | [], _ => true
  | _ :: _, [] => false
  | p :: ps, c :: cs => p = c && leadMatch ps cs

/-- Left-to-right scan of Python `str.replace(pat, '')`: in state
`k + 1` the scanner is still skipping the tail of a match it found. -/
def stripAux (pat : List Char) : List Char → Nat → List Char
  | [], _ => []
  | c :: cs, 0 =>
    if leadMatch pat (c :: cs) then stripAux pat cs (pat.length - 1)
    else c :: stripAux pat cs 0
  | _ :: cs, k + 1 => stripAux pat cs k

/-- Model of Python `str.replace(pat, '')` for a nonempty pattern:
delete every non-overlapping occurrence of `pat`, scanning the
original string left to right without rescanning the seams. -/
def pyRemoveAll (pat : List Char) (l : List Char) : List Char :=
  stripAux pat l 0

/-- Whether `pat` occurs as a contiguous substring of `l`. -/
def containsSeq (pat : List Char) : List Char → Bool
  | [] => leadMatch pat []
  | c :: cs => leadMatch pat (c :: cs) || containsSeq pat cs

/-- The credential the comparison on line 59 receives: line 56's
`request.headers.get('Authorization', '').replace('Bearer ', '')`. -/
def extractToken (auth : Option String) : String :=
  String.mk (pyRemoveAll bearerChars (auth.getD "").toList)

/-- Lines 54–61: `validate_api_key`.  Denies when the normalised
credential is empty or differs from the configured secret. -/
def validate_api_key (auth : Option String) (secret : String) : Bool :=
  if extractToken auth = "" ∨ extractToken auth ≠ secret then false else true

/-- Headers obtained from a base string by inserting extra copies of
a pattern block between its characters (used to state what the
`'Bearer '`-deleting normalisation accepts). -/
inductive Interleaved (pat : List Char) : List Char → List Char → Prop where
  | nil : Interleaved pat [] []
  | block {s h : List Char} : Interleaved pat s h → Interleaved pat s (pat ++ h)
  | cons (c : Char) {s h : List Char} : Interleaved pat s h → Interleaved pat (c :: s) (c :: h)

/-! ### The scan record and storage model

One append-only table (`soc2_security_scans`).  Columns carry the
schema types of §3 of the specification; a payload value that does not
fit its column makes the parameterized `INSERT` fail, which the
handler surfaces through its `psycopg2.Error` branch. -/

structure ScanRecord where
  timestamp : PyDateTime
  repository : String
  application : String
  branch : String
  commit_sha : String
  scan_type : String
  overall_status : String
  total_issues : Int
  severity_threshold : String
  secrets_scanning : Bool
  sast_scanning : Bool
  dependency_scanning : Bool
  container_scanning : Bool
  dast_scanning : Bool
  secrets_findings : Int
  sast_findings : Int
  dependency_vulnerabilities : Int
  web_security_grade : String
  workflow_run_id : JVal
  workflow_run_number : JVal
  sarif_uploaded : Bool
  artifacts_available : Bool
  scan_metadata_json : JVal

/-- Outcome of the insert transaction once a connection is held:
either any `psycopg2.Error` raised by execute/fetchone/commit, or
success with the row returned by `RETURNING id` (`None` when
`fetchone` yields no row). -/
inductive ExecOutcome where
  | err : ExecOutcome
  | ok : Option Int → ExecOutcome

/-- Outcome of the storage layer for one ingestion, split at the
point the source splits it: `connErr` when `get_db_connection`
(line 95) itself raises — which happens BEFORE the timestamp parse of
line 114 — and otherwise a held connection together with the outcome
of the later insert transaction. -/
inductive DbOutcome where
  | connErr : DbOutcome
  | conn : ExecOutcome → DbOutcome

/-- What `request.get_json()` (line 84) gives the handler: `absent`
when there is no JSON body to parse (`get_json` returns `None`),
`malformed` when the body claims to be JSON but does not parse
(`get_json` RAISES, so line 85 is never reached and the generic
exception branch of line 175 answers), or the parsed document. -/
inductive ReqBody where
  | absent : ReqBody
  | malformed : ReqBody
  | json : JVal → ReqBody

/-- Result of one request: HTTP status, JSON body, the table contents
after the request, and whether any storage access was attempted. -/
structure HandlerOut where
  status : Nat
  body : JVal
  db : List ScanRecord
  dbAccessed : Bool

/-- Body shape `jsonify({"error": msg})`. -/
def errJson (msg : String) : JVal :=
  .obj [("error", .str msg)]

/-- The four optional top-level sections read on lines 89–92. -/
structure Sections where
  meta : JVal
  cs : JVal
  sr : JVal
  ev : JVal

/-- Lines 89–92: `data.get(section, {})` for the four sections;
raises when `data` is a truthy non-dictionary. -/
def extractSections (data : JVal) : Except Unit Sections :=
  match pyGet data "scan_metadata" (.obj []) with
  | .error e => .error e
  | .ok meta =>
    match pyGet data "compliance_status" (.obj []) with
    | .error e => .error e
    | .ok cs =>
      match pyGet data "scan_results" (.obj []) with
      | .error e => .error e
      | .ok sr =>
        match pyGet data "evidence_artifacts" (.obj []) with
        | .error e => .error e
        | .ok ev => .ok ⟨meta, cs, sr, ev⟩

/-- Line 114: `datetime.fromisoformat(scan_metadata.get('timestamp',
datetime.utcnow().isoformat()).replace('Z', '+00:00'))`.  A missing
key defaults to the ingestion time's isoformat; a present value must
be a string (else `.replace` raises) that parses (else
`fromisoformat` raises `ValueError`). -/
def scanTimeOf (meta : JVal) (now : PyDateTime) : Except Unit PyDateTime :=
  match pyGet meta "timestamp" (.str (isoformat now)) with
  | .error e => .error e
  | .ok tsv =>
    match asPyStr tsv with
    | .error e => .error e
    | .ok s =>
      match fromisoformat (replaceZ s) with
      | some t => .ok t
      | none => .error ()

/-- The values of the 22 data-carrying `INSERT` parameters after
`scan_time` (lines 116–142), before the database sees them. -/
structure RawArgs where
  repository : JVal
  application : JVal
  branch : JVal
  commit_sha : JVal
  scan_type : JVal
  overall_status : JVal
  total_issues : JVal
  severity_threshold : JVal
  secrets_scanning : JVal
  sast_scanning : JVal
  dependency_scanning : JVal
  container_scanning : JVal
  dast_scanning : JVal
  secrets_findings : JVal
  sast_findings : Int
  dependency_vulnerabilities : JVal
  web_security_grade : JVal
  workflow_run_id : JVal
  workflow_run_number : JVal
  sarif_uploaded : JVal
  artifacts_available : JVal

/-- Total form of `d.get(k, default)` used below once the dictionary
checks of `evalArgsOk` hold (the fallback branch is never reached on
the success path). -/
def jGetD (j : JVal) (k : String) (dflt : JVal) : JVal :=
  match j with
  | .obj kvs => (lookupKV k kvs).getD dflt
  | _ => dflt

/-- Whether a value is a dictionary (so `.get` does not raise). -/
def isObj : JVal → Bool
  | .obj _ => true
  | _ => false

/-- Whether Python `+` accepts the value as an integer (`bool` is an
`int` subclass). -/
def intLike : JVal → Bool
  | .int _ => true
  | .bool _ => true
  | _ => false

/-- Total form of the integer reading done by Python `+`. -/
def asPyIntD : JVal → Int
  | .int n => n
  | .bool b => if b then 1 else 0
  | _ => 0

/-- The `scan_results.sast` object (`scan_results.get('sast', {})`). -/
def sastObj (sec : Sections) : JVal :=
  jGetD sec.sr "sast" (.obj [])

/-- Whether the evaluation of the `INSERT` parameters (lines 118–141)
raises no exception: every `.get` receiver is a dictionary and the
three summed SAST counters are numbers. -/
def evalArgsOk (sec : Sections) : Bool :=
  isObj sec.meta && isObj sec.cs &&
  isObj (jGetD sec.cs "scan_coverage" (.obj [])) &&
  isObj sec.sr && isObj (jGetD sec.sr "secrets" (.obj [])) &&
  isObj (sastObj sec) &&
  intLike (jGetD (sastObj sec) "semgrep_findings" (.int 0)) &&
  intLike (jGetD (sastObj sec) "eslint_findings" (.int 0)) &&
  intLike (jGetD (sastObj sec) "bandit_findings" (.int 0)) &&
  isObj (jGetD sec.sr "dependencies" (.obj [])) &&
  isObj (jGetD sec.sr "web_security" (.obj [])) &&
  isObj sec.ev

/-- The values of the `INSERT` parameters when their evaluation
raises no exception: chained `.get` calls with the documented
defaults, and the `sast_findings` sum of the three SAST sub-tool
counters (lines 132–134). -/
def evalArgsVal (sec : Sections) : RawArgs :=
  { repository := jGetD sec.meta "repository" (.str "")
  , application := jGetD sec.meta "application" (.str "")
  , branch := jGetD sec.meta "branch" (.str "")
  , commit_sha := jGetD sec.meta "commit_sha" (.str "")
  , scan_type := jGetD sec.meta "scan_type" (.str "")
  , overall_status := jGetD sec.cs "overall_status" (.str "UNKNOWN")
  , total_issues := jGetD sec.cs "total_issues" (.int 0)
  , severity_threshold := jGetD sec.cs "severity_threshold" (.str "")
  , secrets_scanning := jGetD (jGetD sec.cs "scan_coverage" (.obj [])) "secrets_scanning" (.bool false)
  , sast_scanning := jGetD (jGetD sec.cs "scan_coverage" (.obj [])) "sast_scanning" (.bool false)
  , dependency_scanning := jGetD (jGetD sec.cs "scan_coverage" (.obj [])) "dependency_scanning" (.bool false)
  , container_scanning := jGetD (jGetD sec.cs "scan_coverage" (.obj [])) "container_scanning" (.bool false)
  , dast_scanning := jGetD (jGetD sec.cs "scan_coverage" (.obj [])) "dast_scanning" (.bool false)
  , secrets_findings := jGetD (jGetD sec.sr "secrets" (.obj [])) "findings" (.int 0)
  , sast_findings :=
      asPyIntD (jGetD (sastObj sec) "semgrep_findings" (.int 0)) +
      asPyIntD (jGetD (sastObj sec) "eslint_findings" (.int 0)) +
      asPyIntD (jGetD (sastObj sec) "bandit_findings" (.int 0))
  , dependency_vulnerabilities := jGetD (jGetD sec.sr "dependencies" (.obj [])) "vulnerabilities" (.int 0)
  , web_security_grade := jGetD (jGetD sec.sr "web_security" (.obj [])) "security_headers_grade" (.str "")
  , workflow_run_id := jGetD sec.meta "workflow_run_id" .null
  , workflow_run_number := jGetD sec.meta "workflow_run_number" .null
  , sarif_uploaded := jGetD sec.ev "sarif_uploaded" (.bool false)
  , artifacts_available := jGetD sec.ev "artifacts_available" (.bool true) }

/-- Evaluation of the `INSERT` parameters (lines 118–141): any raised
exception (a `.get` on a non-dictionary, a non-numeric SAST counter
under `+`) propagates to the generic exception branch; otherwise the
parameter values are produced. -/
def evalArgs (sec : Sections) : Except Unit RawArgs :=
  if evalArgsOk sec then .ok (evalArgsVal sec) else .error ()

/-- A value bound for a string column. -/
def jStr : JVal → Option String
  | .str s => some s
  | _ => none

/-- A value bound for an integer column. -/
def jInt : JVal → Option Int
  | .int n => some n
  | _ => none

/-- A value bound for a boolean column. -/
def jBool : JVal → Option Bool
  | .bool b => some b
  | _ => none

/-- Whether every `INSERT` parameter fits its column's type. -/
def fitsColumns (a : RawArgs) : Bool :=
  (jStr a.repository).isSome && (jStr a.application).isSome && (jStr a.branch).isSome &&
  (jStr a.commit_sha).isSome && (jStr a.scan_type).isSome &&
  (jStr a.overall_status).isSome && (jInt a.total_issues).isSome &&
  (jStr a.severity_threshold).isSome &&
  (jBool a.secrets_scanning).isSome && (jBool a.sast_scanning).isSome &&
  (jBool a.dependency_scanning).isSome && (jBool a.container_scanning).isSome &&
  (jBool a.dast_scanning).isSome && (jInt a.secrets_findings).isSome &&
  (jInt a.dependency_vulnerabilities).isSome && (jStr a.web_security_grade).isSome &&
  (jBool a.sarif_uploaded).isSome && (jBool a.artifacts_available).isSome

/-- Materialisation of the parameterized `INSERT` (lines 99–142): the
row stored on success.  `none` models the database rejecting a
parameter that does not fit its column's type, which the handler
surfaces through the `psycopg2.Error` branch. -/
def toRecord (t : PyDateTime) (a : RawArgs) (data : JVal) : Option ScanRecord :=
  if fitsColumns a then
    some
      { timestamp := t
      , repository := (jStr a.repository).getD ""
      , application := (jStr a.application).getD ""
      , branch := (jStr a.branch).getD ""
      , commit_sha := (jStr a.commit_sha).getD ""
      , scan_type := (jStr a.scan_type).getD ""
      , overall_status := (jStr a.overall_status).getD ""
      , total_issues := (jInt a.total_issues).getD 0
      , severity_threshold := (jStr a.severity_threshold).getD ""
      , secrets_scanning := (jBool a.secrets_scanning).getD false
      , sast_scanning := (jBool a.sast_scanning).getD false
      , dependency_scanning := (jBool a.dependency_scanning).getD false
      , container_scanning := (jBool a.container_scanning).getD false
      , dast_scanning := (jBool a.dast_scanning).getD false
      , secrets_findings := (jInt a.secrets_findings).getD 0
      , sast_findings := a.sast_findings
      , dependency_vulnerabilities := (jInt a.dependency_vulnerabilities).getD 0
      , web_security_grade := (jStr a.web_security_grade).getD ""
      , workflow_run_id := a.workflow_run_id
      , workflow_run_number := a.workflow_run_number
      , sarif_uploaded := (jBool a.sarif_uploaded).getD false
      , artifacts_available := (jBool a.artifacts_available).getD true
      , scan_metadata_json := data }
  else none

/-- Success body of lines 162–167. -/
def successJson (rid : Option Int) (overall : JVal) : JVal :=
  .obj [("status", .str "success")
       , ("scan_id", match rid with | none => .null | some i => .int i)
       , ("message", .str "Security scan data received and stored")
       , ("compliance_status", overall)]

/-- The `POST /security-scans` handler (`receive_security_scan`,
lines 73–183), branching in source order: credential check (78); body
parse, where a malformed JSON body makes `get_json` raise into the
generic exception branch (84, 175); the falsy-body check (85);
section extraction (89–92); the connection attempt (95), whose
`psycopg2.Error` is answered as the database error BEFORE the
timestamp of line 114 is ever parsed; then timestamp parsing (114),
parameter evaluation (116–142) and the insert, whose `psycopg2.Error`
is also the database-error reply while any other exception is the
internal-error reply.  A failed transaction leaves the table
unchanged (rollback, line 172). -/
def receive_security_scan (secret : String) (auth : Option String) (body : ReqBody)
    (now : PyDateTime) (dbo : DbOutcome) (db : List ScanRecord) : HandlerOut :=
  if validate_api_key auth secret then
    match body with
    | .absent => ⟨400, errJson "No JSON data provided", db, false⟩
    | .malformed => ⟨500, errJson "Internal server error", db, false⟩
    | .json data =>
      if data.truthy then
        match extractSections data with
        | .error _ => ⟨500, errJson "Internal server error", db, false⟩
        | .ok sec =>
          match dbo with
          | .connErr => ⟨500, errJson "Database error occurred", db, true⟩
          | .conn ex =>
            match scanTimeOf sec.meta now with
            | .error _ => ⟨500, errJson "Internal server error", db, true⟩
            | .ok t =>
              match evalArgs sec with
              | .error _ => ⟨500, errJson "Internal server error", db, true⟩
              | .ok a =>
                match ex with
                | .err => ⟨500, errJson "Database error occurred", db, true⟩
                | .ok rid =>
                  match toRecord t a data with
                  | none => ⟨500, errJson "Database error occurred", db, true⟩
                  | some r => ⟨201, successJson rid a.overall_status, db ++ [r], true⟩
      else ⟨400, errJson "No JSON data provided", db, false⟩
  else ⟨401, errJson "Unauthorized", db, false⟩

/-! ### The report aggregator (`get_compliance_report`, lines 185–285)

The three SQL queries are given their standard semantics over the
stored list of records.  `NOW() - INTERVAL '<days> days'` is an
external clock value, passed in as the window `cutoff` on the
timestamp order key. -/

/-- Ordering used by `ORDER BY timestamp DESC`. -/
def tsGe (x y : ScanRecord) : Prop :=
  tkey y.timestamp ≤ tkey x.timestamp

instance : DecidableRel tsGe :=
  fun x y => Nat.decLe (tkey y.timestamp) (tkey x.timestamp)

instance : IsTotal ScanRecord tsGe :=
  ⟨fun x y => Nat.le_total (tkey y.timestamp) (tkey x.timestamp)⟩

instance : IsTrans ScanRecord tsGe :=
  ⟨fun _ _ _ hab hbc => le_trans hbc hab⟩

/-- The `WHERE` clause shared by the three report queries
(lines 202–207): timestamp within the window, and the application
filter when one was supplied.  Flask's `request.args.get` yields the
filter; the code adds the condition only `if application:`, so an
empty-string filter is ignored. -/
def inWindow (cutoff : Nat) (appFilter : Option String) (r : ScanRecord) : Bool :=
  cutoff ≤ tkey r.timestamp &&
  (match appFilter with
   | none => true
   | some a => a = "" || r.application = a)

/-- Records the report queries range over. -/
def windowed (cutoff : Nat) (appFilter : Option String) (db : List ScanRecord) :
    List ScanRecord :=
  db.filter (inWindow cutoff appFilter)

/-- Row of the per-application breakdown query (lines 225–235). -/
structure AppRow where
  application : String
  scans : Nat
  compliant : Nat
  avg_issues : ℚ

/-- Ordering used by `ORDER BY scans DESC`. -/
def scansGe (x y : AppRow) : Prop :=
  y.scans ≤ x.scans

instance : DecidableRel scansGe :=
  fun x y => Nat.decLe y.scans x.scans

instance : IsTotal AppRow scansGe :=
  ⟨fun x y => Nat.le_total y.scans x.scans⟩

instance : IsTrans AppRow scansGe :=
  ⟨fun _ _ _ hab hbc => le_trans hbc hab⟩

/-- Row of the recent-non-compliant query (lines 241–249). -/
structure RecentRow where
  application : String
  repository : String
  timestamp : PyDateTime
  total_issues : Int
  workflow_run_id : JVal
  overall_status : String

/-- Summary block of the report (lines 263–270). -/
structure ReportSummary where
  total_scans : Nat
  compliant_scans : Nat
  non_compliant_scans : Nat
  compliance_percentage : ℚ
  avg_issues_per_scan : ℚ
  max_issues_in_scan : Option Int

/-- The report document (lines 259–273). -/
structure Report where
  report_generated : PyDateTime
  period_days : Int
  filter_application : Option String
  summary : ReportSummary
  applications : List AppRow
  recent_non_compliant_scans : List RecentRow

/-- Round-half-to-even on rationals, the rule of Python's `round`
(the service's float arithmetic is modelled exactly, as rationals). -/
def roundHalfEven (q : ℚ) : ℤ :=
  if q - ⌊q⌋ < 1 / 2 then ⌊q⌋
  else if (1 : ℚ) / 2 < q - ⌊q⌋ then ⌊q⌋ + 1
  else if ⌊q⌋ % 2 = 0 then ⌊q⌋ else ⌊q⌋ + 1

/-- Python `round(x, 2)`. -/
def roundQ2 (q : ℚ) : ℚ :=
  (roundHalfEven (q * 100) : ℚ) / 100

/-- SQL `MAX` (NULL on an empty range). -/
def listMaxInt : List Int → Option Int
  | [] => none
  | x :: xs =>
    match listMaxInt xs with
    | none => some x
    | some m => some (max x m)

/-- Sum of `total_issues`, the numerator of SQL `AVG(total_issues)`. -/
def sumIssues (l : List ScanRecord) : Int :=
  (l.map (·.total_issues)).foldl (· + ·) 0

/-- SQL `COUNT(*) FILTER (WHERE overall_status = s)`. -/
def countStatus (s : String) (l : List ScanRecord) : Nat :=
  l.countP (fun r => decide (r.overall_status = s))

/-- One group of the `GROUP BY application` query. -/
def mkAppRow (a : String) (g : List ScanRecord) : AppRow :=
  { application := a
  , scans := g.length
  , compliant := countStatus "COMPLIANT" g
  , avg_issues := if g.length = 0 then 0 else (sumIssues g : ℚ) / g.length }

/-- The per-application breakdown: grouped by application, ordered by
scan count descending (lines 225–235). -/
def appBreakdown (win : List ScanRecord) : List AppRow :=
  List.insertionSort scansGe
    ((win.map (·.application)).dedup.map
      (fun a => mkAppRow a (win.filter (fun r => decide (r.application = a)))))

/-- Projection of a stored record onto the recent-non-compliant row. -/
def mkRecentRow (r : ScanRecord) : RecentRow :=
  { application := r.application, repository := r.repository
  , timestamp := r.timestamp, total_issues := r.total_issues
  , workflow_run_id := r.workflow_run_id, overall_status := r.overall_status }

/-- The recent-non-compliant query (lines 241–249): `NON_COMPLIANT`
records of the window, ordered by timestamp descending, `LIMIT 10`. -/
def recentNonCompliant (win : List ScanRecord) : List RecentRow :=
  ((List.insertionSort tsGe
      (win.filter (fun r => decide (r.overall_status = "NON_COMPLIANT")))).take 10).map
    mkRecentRow

/-- Assembly of the report document (lines 209–273), including the
guarded compliance percentage of lines 254–257 and its rounding on
line 267. -/
def reportOf (cutoff : Nat) (appFilter : Option String) (days : Int)
    (gen : PyDateTime) (db : List ScanRecord) : Report :=
  let win := windowed cutoff appFilter db
  let total := win.length
  let compliant := countStatus "COMPLIANT" win
  { report_generated := gen
  , period_days := days
  , filter_application := appFilter
  , summary :=
    { total_scans := total
    , compliant_scans := compliant
    , non_compliant_scans := countStatus "NON_COMPLIANT" win
    , compliance_percentage :=
        roundQ2 (if 0 < total then (compliant : ℚ) / (total : ℚ) * 100 else 0)
    , avg_issues_per_scan :=
        roundQ2 (if total = 0 then 0 else (sumIssues win : ℚ) / (total : ℚ))
    , max_issues_in_scan := listMaxInt (win.map (·.total_issues)) }
  , applications := appBreakdown win
  , recent_non_compliant_scans := recentNonCompliant win }

/-- Body of a `GET /compliance-report` response. -/
inductive ReportBody where
  | failed : String → ReportBody
  | doc : Report → ReportBody

/-- Result of a `GET /compliance-report` request. -/
structure ReportOut where
  status : Nat
  body : ReportBody
  db : List ScanRecord
  dbAccessed : Bool

/-- The `GET /compliance-report` handler (lines 185–285): credential
check, then the aggregate queries; any storage failure becomes the
generic failed-report reply. -/
def get_compliance_report (secret : String) (auth : Option String) (days : Int)
    (application : Option String) (cutoff : Nat) (gen : PyDateTime)
    (dbFail : Bool) (db : List ScanRecord) : ReportOut :=
  if validate_api_key auth secret then
    if dbFail then ⟨500, .failed "Failed to generate report", db, true⟩
    else ⟨200, .doc (reportOf cutoff application days gen db), db, true⟩
  else ⟨401, .failed "Unauthorized", db, false⟩

/-! ### The status lookup (`get_application_status`, lines 287–335) -/

/-- The `SELECT ... WHERE application = %s ORDER BY timestamp DESC
LIMIT 1` query (lines 300–305). -/
def latestScanFor (application : String) (db : List ScanRecord) : Option ScanRecord :=
  (List.insertionSort tsGe
    (db.filter (fun r => decide (r.application = application)))).head?

/-- Success body of lines 313–325. -/
def statusJson (application : String) (r : ScanRecord) : JVal :=
  .obj [("application", .str application)
       , ("current_status", .str r.overall_status)
       , ("last_scan", .str (isoformat r.timestamp))
       , ("total_issues", .int r.total_issues)
       , ("scan_coverage", .obj
           [("secrets_scanning", .bool r.secrets_scanning)
           , ("sast_scanning", .bool r.sast_scanning)
           , ("dependency_scanning", .bool r.dependency_scanning)
           , ("container_scanning", .bool r.container_scanning)
           , ("dast_scanning", .bool r.dast_scanning)])]

/-- The `GET /compliance-status/{application}` handler (lines
287–335): credential check, latest-record query, not-found when the
application has no records. -/
def get_application_status (secret : String) (auth : Option String)
    (application : String) (dbFail : Bool) (db : List ScanRecord) : HandlerOut :=
  if validate_api_key auth secret then
    if dbFail then ⟨500, errJson "Failed to get status", db, true⟩
    else
      match latestScanFor application db with
      | none => ⟨404, errJson "Application not found", db, true⟩
      | some r => ⟨200, statusJson application r, db, true⟩
  else ⟨401, errJson "Unauthorized", db, false⟩

/-! ### Derived payload accessors and fixtures -/

/-- The caller's `scan_metadata.timestamp` entry, when the payload
shape provides one along the path the handler reads. -/
def timestampField (data : JVal) : Option JVal :=
  match data with
  | .obj kvs =>
    match (lookupKV "scan_metadata" kvs).getD (.obj []) with
    | .obj mkvs => lookupKV "timestamp" mkvs
    | _ => none
  | _ => none

/-- The `scan_results.sast` object of a payload, read as the claim
reads it (each level defaulting to an empty object when absent). -/
def sastSection (data : JVal) : JVal :=
  match data with
  | .obj kvs =>
    match (lookupKV "scan_results" kvs).getD (.obj []) with
    | .obj skvs => (lookupKV "sast" skvs).getD (.obj [])
    | _ => .null
  | _ => .null

/-- One named sub-counter found under `scan_results.sast`, counted as
the claim words it: its integer value when present, zero when
missing. -/
def counterSpec (sast : JVal) (k : String) : Int :=
  match sast with
  | .obj kvs =>
    match lookupKV k kvs with
    | some (.int n) => n
    | _ => 0
  | _ => 0

/-- The claim's stated value: the sum of the semgrep, eslint and
bandit sub-counters found under `scan_results.sast`, each missing
sub-counter contributing zero. -/
def sastSumSpec (data : JVal) : Int :=
  counterSpec (sastSection data) "semgrep_findings" +
  counterSpec (sastSection data) "eslint_findings" +
  counterSpec (sastSection data) "bandit_findings"

/-- Each of the three SAST sub-counters of the payload is absent or
an integer (counters, as the claim presumes). -/
def countersIntLike (data : JVal) : Prop :=
  ∀ k ∈ (["semgrep_findings", "eslint_findings", "bandit_findings"] : List String),
    (match sastSection data with
     | .obj kvs => lookupKV k kvs = none ∨ ∃ n : Int, lookupKV k kvs = some (.int n)
     | _ => True)

/-- A concrete ingestion time for witnesses. -/
def dt0 : PyDateTime := ⟨2024, 1, 1, 0, 0, 0, 0⟩

/-- A concrete well-formed payload: an application name and a single
SAST counter (`{semgrep_findings: 2}`), no timestamp. -/
def pGood : JVal :=
  .obj [("scan_metadata", .obj [("application", .str "svc-a")])
       , ("scan_results", .obj [("sast", .obj [("semgrep_findings", .int 2)])])]

/-- A concrete payload whose `scan_metadata.timestamp` is present but
not parseable as ISO-8601. -/
def pBadTs : JVal :=
  .obj [("scan_metadata", .obj [("timestamp", .str "garbage")])]

/-- The record a successful ingestion of `pGood` stores. -/
def recGood : ScanRecord :=
  { timestamp := dt0
  , repository := "", application := "svc-a", branch := ""
  , commit_sha := "", scan_type := ""
  , overall_status := "UNKNOWN", total_issues := 0
  , severity_threshold := ""
  , secrets_scanning := false, sast_scanning := false
  , dependency_scanning := false, container_scanning := false
  , dast_scanning := false
  , secrets_findings := 0
  , sast_findings := 2
  , dependency_vulnerabilities := 0
  , web_security_grade := ""
  , workflow_run_id := .null, workflow_run_number := .null
  , sarif_uploaded := false, artifacts_available := true
  , scan_metadata_json := pGood }

/-- A non-compliant record for the report witnesses. -/
def recA : ScanRecord :=
  { recGood with application := "a", overall_status := "NON_COMPLIANT" }

/-- A later record under another application name. -/
def recB : ScanRecord :=
  { recGood with application := "b", timestamp := ⟨2024, 1, 2, 0, 0, 0, 0⟩ }

/-- A concrete stored table for the report witnesses. -/
def dbW : List ScanRecord := [recA, recB]

/-! ### Lemmas: digit strings -/

theorem padDigits_length (n v : Nat) : (padDigits n v).length = n := by
  induction n generalizing v with
  | zero => rfl
  | succ n ih => simp [padDigits, ih]

theorem digC_toNat {v : Nat} (h : v < 10) : (digC v).toNat = 48 + v := by
  interval_cases v <;> decide

theorem digC_isDigit {v : Nat} (h : v < 10) : (digC v).isDigit = true := by
  interval_cases v <;> decide

theorem padDigits_all_digits (n v : Nat) :
    (padDigits n v).all Char.isDigit = true := by
  induction n generalizing v with
  | zero => rfl
  | succ n ih =>
    simp only [padDigits, List.all_append, Bool.and_eq_true, ih, true_and]
    simp [digC_isDigit (Nat.mod_lt v (by norm_num))]

theorem digitsVal_append_digit (xs : List Char) (c : Char) :
    digitsVal (xs ++ [c]) = 10 * digitsVal xs + (c.toNat - 48) := by
  simp [digitsVal, List.foldl_append]

theorem digitsVal_padDigits {n v : Nat} (h : v < 10 ^ n) :
    digitsVal (padDigits n v) = v := by
  induction n generalizing v with
  | zero => simp [digitsVal, padDigits]; omega
  | succ n ih =>
    have hdiv : v / 10 < 10 ^ n := by
      have := Nat.pow_succ 10 n
      omega
    have hmod : v % 10 < 10 := Nat.mod_lt v (by norm_num)
    rw [padDigits, digitsVal_append_digit, ih hdiv, digC_toNat hmod]
    omega

theorem readN_padDigits {n v : Nat} (h : v < 10 ^ n) (rest : List Char) :
    readN n (padDigits n v ++ rest) = some (v, rest) := by
  have hlen := padDigits_length n v
  have htake : (padDigits n v ++ rest).take n = padDigits n v := List.take_left' hlen
  have hdrop : (padDigits n v ++ rest).drop n = rest := List.drop_left' hlen
  simp only [readN, htake, hdrop, hlen, padDigits_all_digits, and_true]
  simp [digitsVal_padDigits h]

theorem readN_padDigits_nil {n v : Nat} (h : v < 10 ^ n) :
    readN n (padDigits n v) = some (v, []) := by
  have := readN_padDigits h []
  rwa [List.append_nil] at this

/-! ### Lemmas: the isoformat round trip -/

theorem expectC_cons (c : Char) (rest : List Char) :
    expectC c (c :: rest) = some rest := by
  simp [expectC]

theorem takeWhile_of_all {p : Char → Bool} {l : List Char}
    (h : l.all p = true) : l.takeWhile p = l := by
  induction l with
  | nil => rfl
  | cons c cs ih =>
    simp only [List.all_cons, Bool.and_eq_true] at h
    simp [List.takeWhile_cons, h.1, ih h.2]

theorem dropWhile_of_all {p : Char → Bool} {l : List Char}
    (h : l.all p = true) : l.dropWhile p = [] := by
  induction l with
  | nil => rfl
  | cons c cs ih =>
    simp only [List.all_cons, Bool.and_eq_true] at h
    simp [List.dropWhile_cons, h.1, ih h.2]

theorem parseFracTail_empty : parseFracTail [] = some 0 := rfl

theorem parseFracTail_frac {us : Nat} (h0 : us < 10 ^ 6) :
    parseFracTail ('.' :: padDigits 6 us) = some us := by
  have hall := padDigits_all_digits 6 us
  have hlen := padDigits_length 6 us
  simp only [parseFracTail, if_pos rfl, takeWhile_of_all hall, dropWhile_of_all hall, hlen]
  norm_num [parseTzTail, digitsVal_padDigits h0]

/-- On a valid datetime, the model parser inverts the model printer,
as `datetime.fromisoformat` accepts `datetime.isoformat()` output. -/
theorem fromisoformatL_isoformatL {d : PyDateTime} (h : d.isValid = true) :
    fromisoformatL (isoformatL d) = some d := by
  obtain ⟨y, mo, dy, hh, mi, ss, us⟩ := d
  simp only [PyDateTime.isValid, Bool.and_eq_true, decide_eq_true_eq] at h
  obtain ⟨⟨⟨⟨⟨⟨⟨⟨⟨h1, h2⟩, h3⟩, h4⟩, h5⟩, h6⟩, h7⟩, h8⟩, h9⟩, h10⟩ := h
  have hy : y < 10 ^ 4 := by omega
  have hmo : mo < 10 ^ 2 := by omega
  have hdy : dy < 10 ^ 2 := by
    have : daysInMonth y mo ≤ 31 := by
      unfold daysInMonth
      split
      · split <;> omega
      · split <;> omega
    omega
  have hhh : hh < 10 ^ 2 := by omega
  have hmi : mi < 10 ^ 2 := by omega
  have hss : ss < 10 ^ 2 := by omega
  have hdate : (1 ≤ y ∧ 1 ≤ mo ∧ mo ≤ 12 ∧ 1 ≤ dy ∧ dy ≤ daysInMonth y mo) := by omega
  by_cases hz : us = 0
  · subst hz
    simp [isoformatL, fromisoformatL, readN_padDigits hy, readN_padDigits hmo,
      readN_padDigits hdy, hdate, parseTimePart, readN_padDigits hhh,
      readN_padDigits hmi, readN_padDigits hss, readN_padDigits_nil hss,
      parseFracTail_empty, expectC_cons, h7, h8, h9]
  · simp [isoformatL, hz, fromisoformatL, readN_padDigits hy, readN_padDigits hmo,
      readN_padDigits hdy, hdate, parseTimePart, readN_padDigits hhh,
      readN_padDigits hmi, readN_padDigits hss, expectC_cons,
      parseFracTail_frac (by omega : us < 10 ^ 6), h7, h8, h9, h10]

theorem isDigit_ne_Z {c : Char} (h : c.isDigit = true) : c ≠ 'Z' := by
  intro he
  subst he
  exact absurd h (by decide)

theorem mem_padDigits_isDigit {c : Char} {n v : Nat} (h : c ∈ padDigits n v) :
    c.isDigit = true := by
  have hall := padDigits_all_digits n v
  rw [List.all_eq_true] at hall
  exact hall c h

theorem replaceZL_of_no_Z {l : List Char} (h : ∀ c ∈ l, c ≠ 'Z') :
    replaceZL l = l := by
  induction l with
  | nil => rfl
  | cons c cs ih =>
    have hc : c ≠ 'Z' := h c (List.mem_cons_self c cs)
    simp only [replaceZL, if_neg hc]
    rw [ih (fun x hx => h x (List.mem_cons_of_mem c hx))]

theorem isoformatL_no_Z (d : PyDateTime) : ∀ c ∈ isoformatL d, c ≠ 'Z' := by
  intro c hc
  simp only [isoformatL, List.mem_append, List.mem_cons] at hc
  rcases hc with ((((((h | h) | h) | h) | h) | h) | h)
  · exact isDigit_ne_Z (mem_padDigits_isDigit h)
  · rcases h with h | h
    · subst h; decide
    · exact isDigit_ne_Z (mem_padDigits_isDigit h)
  · rcases h with h | h
    · subst h; decide
    · exact isDigit_ne_Z (mem_padDigits_isDigit h)
  · rcases h with h | h
    · subst h; decide
    · exact isDigit_ne_Z (mem_padDigits_isDigit h)
  · rcases h with h | h
    · subst h; decide
    · exact isDigit_ne_Z (mem_padDigits_isDigit h)
  · rcases h with h | h
    · subst h; decide
    · exact isDigit_ne_Z (mem_padDigits_isDigit h)
  · split at h
    · exact absurd h (List.not_mem_nil c)
    · rcases List.mem_cons.mp h with h1 | h1
      · subst h1; decide
      · exact isDigit_ne_Z (mem_padDigits_isDigit h1)

theorem replaceZL_isoformatL (d : PyDateTime) :
    replaceZL (isoformatL d) = isoformatL d :=
  replaceZL_of_no_Z (isoformatL_no_Z d)

theorem parseFracTail_of_tz {cs : List Char} (h : parseTzTail cs = some ()) :
    parseFracTail cs = some 0 := by
  match cs with
  | [] => rfl
  | c :: rest =>
    by_cases hpm : c = '+' ∨ c = '-'
    · have hdot : ¬ c = '.' := by
        rcases hpm with h1 | h1 <;> subst h1 <;> decide
      simp only [parseFracTail, if_neg hdot, h]
    · rw [parseTzTail, if_neg hpm] at h
      exact absurd h (by simp)

theorem takeWhile_append_of_all {p : Char → Bool} {l₁ l₂ : List Char}
    (h : l₁.all p = true) :
    (l₁ ++ l₂).takeWhile p = l₁ ++ l₂.takeWhile p := by
  induction l₁ with
  | nil => rfl
  | cons c cs ih =>
    simp only [List.all_cons, Bool.and_eq_true] at h
    simp [List.takeWhile_cons, h.1, ih h.2]

theorem dropWhile_append_of_all {p : Char → Bool} {l₁ l₂ : List Char}
    (h : l₁.all p = true) :
    (l₁ ++ l₂).dropWhile p = l₂.dropWhile p := by
  induction l₁ with
  | nil => rfl
  | cons c cs ih =>
    simp only [List.all_cons, Bool.and_eq_true] at h
    simp [List.dropWhile_cons, h.1, ih h.2]

theorem tz_head_not_digit {cs : List Char} (h : parseTzTail cs = some ()) :
    cs.takeWhile Char.isDigit = [] ∧ cs.dropWhile Char.isDigit = cs := by
  match cs with
  | [] => exact ⟨rfl, rfl⟩
  | c :: rest =>
    by_cases hpm : c = '+' ∨ c = '-'
    · have hd : c.isDigit = false := by
        rcases hpm with h1 | h1 <;> subst h1 <;> decide
      simp [List.takeWhile_cons, List.dropWhile_cons, hd]
    · rw [parseTzTail, if_neg hpm] at h
      exact absurd h (by simp)

theorem parseFracTail_frac_tz {us : Nat} (h0 : us < 10 ^ 6) {tz : List Char}
    (htz : parseTzTail tz = some ()) :
    parseFracTail ('.' :: (padDigits 6 us ++ tz)) = some us := by
  have hall := padDigits_all_digits 6 us
  have hlen := padDigits_length 6 us
  obtain ⟨ht, hd⟩ := tz_head_not_digit htz
  simp only [parseFracTail, if_pos rfl, takeWhile_append_of_all hall,
    dropWhile_append_of_all hall, ht, hd, List.append_nil, hlen]
  norm_num [htz, digitsVal_padDigits h0]

/-- Parser/printer round trip with an optional trailing UTC offset:
`fromisoformat` recovers a valid datetime from its `isoformat` output,
with any well-formed offset tail accepted and discarded. -/
theorem fromisoformatL_isoformatL_tz {d : PyDateTime} (h : d.isValid = true)
    {tz : List Char} (htz : parseTzTail tz = some ()) :
    fromisoformatL (isoformatL d ++ tz) = some d := by
  obtain ⟨y, mo, dy, hh, mi, ss, us⟩ := d
  simp only [PyDateTime.isValid, Bool.and_eq_true, decide_eq_true_eq] at h
  obtain ⟨⟨⟨⟨⟨⟨⟨⟨⟨h1, h2⟩, h3⟩, h4⟩, h5⟩, h6⟩, h7⟩, h8⟩, h9⟩, h10⟩ := h
  have hy : y < 10 ^ 4 := by omega
  have hmo : mo < 10 ^ 2 := by omega
  have hdy : dy < 10 ^ 2 := by
    have : daysInMonth y mo ≤ 31 := by
      unfold daysInMonth
      split
      · split <;> omega
      · split <;> omega
    omega
  have hhh : hh < 10 ^ 2 := by omega
  have hmi : mi < 10 ^ 2 := by omega
  have hss : ss < 10 ^ 2 := by omega
  have hdate : (1 ≤ y ∧ 1 ≤ mo ∧ mo ≤ 12 ∧ 1 ≤ dy ∧ dy ≤ daysInMonth y mo) := by omega
  by_cases hz : us = 0
  · subst hz
    simp [isoformatL, fromisoformatL, List.append_assoc, readN_padDigits hy,
      readN_padDigits hmo, readN_padDigits hdy, hdate, parseTimePart,
      readN_padDigits hhh, readN_padDigits hmi, readN_padDigits hss,
      parseFracTail_of_tz htz, expectC_cons, h7, h8, h9]
  · simp [isoformatL, hz, fromisoformatL, List.append_assoc, readN_padDigits hy,
      readN_padDigits hmo, readN_padDigits hdy, hdate, parseTimePart,
      readN_padDigits hhh, readN_padDigits hmi, readN_padDigits hss, expectC_cons,
      parseFracTail_frac_tz (by omega : us < 10 ^ 6) htz, h7, h8, h9, h10]

theorem replaceZL_append (l₁ l₂ : List Char) :
    replaceZL (l₁ ++ l₂) = replaceZL l₁ ++ replaceZL l₂ := by
  induction l₁ with
  | nil => rfl
  | cons c cs ih =>
    by_cases hc : c = 'Z' <;> simp [replaceZL, hc, ih]

/-- The handler's default timestamp — `datetime.utcnow().isoformat()`
normalised by the `'Z'` replacement — parses back to the ingestion
time. -/
theorem fromisoformat_replaceZ_isoformat {d : PyDateTime} (h : d.isValid = true) :
    fromisoformat (replaceZ (isoformat d)) = some d := by
  show fromisoformatL (replaceZL (isoformatL d)) = some d
  rw [replaceZL_isoformatL, ← List.append_nil (isoformatL d)]
  exact fromisoformatL_isoformatL_tz h rfl

/-- A caller timestamp written as `isoformat` output with a trailing
`'Z'` is accepted: line 114 rewrites the `'Z'` to `'+00:00'`, which
the parser validates and reads as UTC. -/
theorem fromisoformat_Z_suffix {d : PyDateTime} (h : d.isValid = true) :
    fromisoformat (replaceZ (String.mk (isoformatL d ++ ['Z']))) = some d := by
  show fromisoformatL (replaceZL (isoformatL d ++ ['Z'])) = some d
  rw [replaceZL_append, replaceZL_isoformatL]
  have : replaceZL ['Z'] = ['+', '0', '0', ':', '0', '0'] := rfl
  rw [this]
  exact fromisoformatL_isoformatL_tz h (by decide)

/-! ### Lemmas: the credential normalisation -/

theorem leadMatch_append_self (pat rest : List Char) :
    leadMatch pat (pat ++ rest) = true := by
  induction pat with
  | nil => rfl
  | cons p ps ih => simp [leadMatch, ih]

theorem leadMatch_of_append {p a b : List Char}
    (h : leadMatch p (a ++ b) = true) (hl : p.length ≤ a.length) :
    leadMatch p a = true := by
  induction p generalizing a with
  | nil => rfl
  | cons x xs ih =>
    match a with
    | [] => simp at hl
    | c :: cs =>
      simp only [List.cons_append, leadMatch, Bool.and_eq_true] at h ⊢
      exact ⟨h.1, ih h.2 (by simpa using hl)⟩

theorem stripAux_skip (pat : List Char) (ds rest : List Char) :
    stripAux pat (ds ++ rest) ds.length = stripAux pat rest 0 := by
  induction ds with
  | nil => rfl
  | cons c cs ih =>
    simp only [List.cons_append, List.length_cons, stripAux]
    exact ih

theorem stripAux_id_of_not_contains {pat l : List Char}
    (h : containsSeq pat l = false) : stripAux pat l 0 = l := by
  induction l with
  | nil => rfl
  | cons c cs ih =>
    simp only [containsSeq, Bool.or_eq_false_iff] at h
    simp only [stripAux, if_neg (by simp [h.1] : ¬ leadMatch pat (c :: cs) = true)]
    rw [ih h.2]

/-- The nonempty proper suffixes of `'Bearer '`. -/
def bearerSuffixes : List (List Char) :=
  [['e', 'a', 'r', 'e', 'r', ' '], ['a', 'r', 'e', 'r', ' '], ['r', 'e', 'r', ' ']
  , ['e', 'r', ' '], ['r', ' '], [' ']]

theorem bearerSuffixes_no_lead :
    ∀ v ∈ bearerSuffixes, leadMatch v bearerChars = false := by decide

theorem bearerSuffixes_length :
    ∀ v ∈ bearerSuffixes, v.length ≤ bearerChars.length := by decide

theorem bearerSuffixes_tail :
    ∀ v ∈ bearerSuffixes, v.tail ∈ bearerSuffixes ∨ v.tail = [] := by decide

/-- No nonempty proper suffix of `'Bearer '` can begin in an inserted
`'Bearer '` block: if such a suffix heads an interleaving, it heads
the underlying base string. -/
theorem inter_suffix {s h : List Char} (hI : Interleaved bearerChars s h) :
    ∀ v ∈ bearerSuffixes, leadMatch v h = true → leadMatch v s = true := by
  induction hI with
  | nil =>
    intro v hv hm
    match v with
    | [] => rfl
    | x :: xs => exact absurd hm (by simp [leadMatch])
  | block _ ih =>
    intro v hv hm
    have hlm := leadMatch_of_append hm (bearerSuffixes_length v hv)
    exact absurd hlm (by simp [bearerSuffixes_no_lead v hv])
  | cons c _ ih =>
    intro v hv hm
    match v with
    | [] => rfl
    | x :: xs =>
      simp only [leadMatch, Bool.and_eq_true, decide_eq_true_eq] at hm ⊢
      refine ⟨hm.1, ?_⟩
      rcases bearerSuffixes_tail (x :: xs) hv with ht | ht
      · exact ih xs ht hm.2
      · simp only [List.tail_cons] at ht
        subst ht
        rfl

/-- Deleting one leading `'Bearer '` block. -/
theorem strip_block (h₁ : List Char) :
    stripAux bearerChars (bearerChars ++ h₁) 0 = stripAux bearerChars h₁ 0 := by
  show stripAux bearerChars ('B' :: (['e', 'a', 'r', 'e', 'r', ' '] ++ h₁)) 0 = _
  rw [stripAux,
    if_pos (show leadMatch bearerChars ('B' :: (['e', 'a', 'r', 'e', 'r', ' '] ++ h₁)) = true
      from leadMatch_append_self bearerChars h₁)]
  exact stripAux_skip bearerChars ['e', 'a', 'r', 'e', 'r', ' '] h₁

/-- Deleting the `'Bearer '` occurrences of an interleaving recovers
the base string, provided the base itself never contains `'Bearer '`:
every occurrence of the pattern in the interleaving is an inserted
block. -/
theorem strip_interleaved {s h : List Char} (hI : Interleaved bearerChars s h)
    (hns : containsSeq bearerChars s = false) :
    pyRemoveAll bearerChars h = s := by
  induction hI with
  | nil => rfl
  | @block s₁ h₁ hI' ih =>
    show stripAux bearerChars (bearerChars ++ h₁) 0 = s₁
    rw [strip_block h₁]
    exact ih hns
  | @cons c s₁ h₁ hI' ih =>
    simp only [containsSeq, Bool.or_eq_false_iff] at hns
    have hlm : leadMatch bearerChars (c :: h₁) = false := by
      by_contra hcon
      rw [Bool.not_eq_false] at hcon
      simp only [bearerChars, leadMatch, Bool.and_eq_true, decide_eq_true_eq] at hcon
      have hsuf : leadMatch ['e', 'a', 'r', 'e', 'r', ' '] s₁ = true :=
        inter_suffix hI' _ (by decide) hcon.2
      have : leadMatch bearerChars (c :: s₁) = true := by
        simp [bearerChars, leadMatch, ← hcon.1, hsuf]
      simp [this] at hns
    show stripAux bearerChars (c :: h₁) 0 = _
    rw [stripAux, if_neg (by simp [hlm])]
    exact congrArg (c :: ·) (ih hns.2)

theorem extractToken_none : extractToken none = "" := rfl

theorem pyRemoveAll_id_of_not_contains {pat l : List Char}
    (h : containsSeq pat l = false) : pyRemoveAll pat l = l :=
  stripAux_id_of_not_contains h

theorem mk_toList (s : String) : String.mk s.toList = s := rfl

theorem mk_eq_empty_iff (l : List Char) : String.mk l = "" ↔ l = [] := by
  constructor
  · intro h
    exact congrArg String.data h
  · intro h
    subst h
    rfl

/-- Internal form of the credential check: allow exactly when the
header is present and its `'Bearer '`-deleted form is nonempty and
equals the secret. -/
theorem validate_iff_aux (auth : Option String) (secret : String) :
    validate_api_key auth secret = true ↔
      auth ≠ none ∧ extractToken auth ≠ "" ∧ extractToken auth = secret := by
  unfold validate_api_key
  split
  case isTrue hcond =>
    simp only [Bool.false_eq_true, false_iff]
    rintro ⟨hne, hne2, heq⟩
    rcases hcond with h1 | h1
    · exact hne2 h1
    · exact h1 heq
  case isFalse hcond =>
    push_neg at hcond
    obtain ⟨h1, h2⟩ := hcond
    simp only [true_iff]
    refine ⟨?_, h1, h2⟩
    intro hnone
    subst hnone
    exact h1 extractToken_none

/-! ### Claim C1 -/

/-- C1: for every caller-supplied bearer credential and configured
secret, `validate_api_key` allows the request if and only if the
token — the credential the comparison receives after the header
normalisation of line 56 — is present, non-empty and exactly equal to
the secret; it denies whenever that token is missing, empty or
differs from the secret in any way. -/
theorem credential_check_allows_iff (auth : Option String) (secret : String) :
    validate_api_key auth secret = true ↔
      auth ≠ none ∧ extractToken auth ≠ "" ∧ extractToken auth = secret :=
  validate_iff_aux auth secret

/-! ### Claim C2 -/

/-- C2 counterexample: for the empty secret — which does not contain
`'Bearer '` — the header consisting of the bare secret is denied, not
accepted as the claim states: the normalised credential is empty and
line 59 rejects empty credentials. -/
theorem credential_check_empty_secret_cex :
    containsSeq bearerChars "".toList = false ∧
      validate_api_key (some "") "" = false := by
  exact ⟨rfl, rfl⟩

/-- C2 (amended): the credential check deletes every occurrence of
`'Bearer '` from the `Authorization` header and accepts exactly those
headers whose deleted form is non-empty and equals the secret; in
particular, for every NON-EMPTY secret not containing `'Bearer '`,
the bare secret is accepted as a header, as is any header obtained by
interleaving extra `'Bearer '` blocks into the secret. -/
theorem credential_check_normalisation (secret hdr : String) :
    (validate_api_key (some hdr) secret = true ↔
      pyRemoveAll bearerChars hdr.toList ≠ [] ∧
      String.mk (pyRemoveAll bearerChars hdr.toList) = secret) ∧
    (containsSeq bearerChars secret.toList = false → secret ≠ "" →
      validate_api_key (some secret) secret = true ∧
      (Interleaved bearerChars secret.toList hdr.toList →
        validate_api_key (some hdr) secret = true)) := by
  have htok : ∀ s : String, extractToken (some s) =
      String.mk (pyRemoveAll bearerChars s.toList) := fun _ => rfl
  constructor
  · rw [validate_iff_aux, htok]
    constructor
    · rintro ⟨-, hne, heq⟩
      exact ⟨fun hl => hne ((mk_eq_empty_iff _).mpr hl), heq⟩
    · rintro ⟨hne, heq⟩
      exact ⟨by simp, fun hs => hne ((mk_eq_empty_iff _).mp hs), heq⟩
  · intro hfree hne
    have hbare : extractToken (some secret) = secret := by
      rw [htok, pyRemoveAll_id_of_not_contains hfree]
      exact mk_toList secret
    constructor
    · rw [validate_iff_aux]
      exact ⟨by simp, by rw [hbare]; exact hne, hbare⟩
    · intro hI
      have hstrip : extractToken (some hdr) = secret := by
        rw [htok, strip_interleaved hI hfree]
        exact mk_toList secret
      rw [validate_iff_aux]
      exact ⟨by simp, by rw [hstrip]; exact hne, hstrip⟩

/-- C2 witness: with secret `"abc"`, both the bare header `"abc"` and
the interleaved header `"aBearer bc"` are accepted. -/
theorem credential_check_normalisation_witness :
    validate_api_key (some "abc") "abc" = true ∧
      validate_api_key (some "aBearer bc") "abc" = true := by
  have h := (credential_check_normalisation "abc" "aBearer bc").2
    (by decide) (by decide)
  refine ⟨h.1, h.2 ?_⟩
  show Interleaved bearerChars ['a', 'b', 'c'] ('a' :: (bearerChars ++ ['b', 'c']))
  exact .cons 'a' (.block (.cons 'b' (.cons 'c' .nil)))

/-! ### Claim C5 -/

/-- C5: every request to one of the three protected endpoints whose
bearer token fails the credential check is answered with 401
Unauthorized, no storage access of any kind is attempted before
returning, and the stored state is unchanged. -/
theorem unauthorized_before_storage (secret : String) (auth : Option String)
    (body : ReqBody) (now : PyDateTime) (dbo : DbOutcome) (days : Int)
    (appFilter : Option String) (cutoff : Nat) (gen : PyDateTime) (dbFail : Bool)
    (application : String) (db : List ScanRecord)
    (h : validate_api_key auth secret = false) :
    receive_security_scan secret auth body now dbo db =
        ⟨401, errJson "Unauthorized", db, false⟩ ∧
      get_compliance_report secret auth days appFilter cutoff gen dbFail db =
        ⟨401, ReportBody.failed "Unauthorized", db, false⟩ ∧
      get_application_status secret auth application dbFail db =
        ⟨401, errJson "Unauthorized", db, false⟩ := by
  refine ⟨?_, ?_, ?_⟩
  · unfold receive_security_scan
    rw [if_neg (by simp [h])]
  · unfold get_compliance_report
    rw [if_neg (by simp [h])]
  · unfold get_application_status
    rw [if_neg (by simp [h])]

/-- C5 witness: a request with no `Authorization` header at all. -/
theorem unauthorized_before_storage_witness :
    receive_security_scan "s" none ReqBody.absent dt0
        (DbOutcome.conn (ExecOutcome.ok none)) [] =
        ⟨401, errJson "Unauthorized", [], false⟩ ∧
      get_compliance_report "s" none 30 none 0 dt0 false [] =
        ⟨401, ReportBody.failed "Unauthorized", [], false⟩ ∧
      get_application_status "s" none "svc-a" false [] =
        ⟨401, errJson "Unauthorized", [], false⟩ :=
  unauthorized_before_storage "s" none ReqBody.absent dt0
    (DbOutcome.conn (ExecOutcome.ok none)) 30 none 0 dt0
    false "svc-a" [] (by decide)

/-! ### Claim C4 -/

/-- On a truthy body with a valid token, the ingestion handler never
returns 400: every remaining exit is a 500 or the 201 success. -/
theorem receive_truthy_status (secret : String) (auth : Option String) (data : JVal)
    (now : PyDateTime) (dbo : DbOutcome) (db : List ScanRecord)
    (hv : validate_api_key auth secret = true) (ht : data.truthy = true) :
    (receive_security_scan secret auth (ReqBody.json data) now dbo db).status = 500 ∨
      (receive_security_scan secret auth (ReqBody.json data) now dbo db).status = 201 := by
  unfold receive_security_scan
  rw [if_pos hv]
  dsimp only
  rw [if_pos ht]
  split
  · left; rfl
  · match dbo with
    | .connErr => left; rfl
    | .conn ex =>
      dsimp only
      split
      · left; rfl
      · split
        · left; rfl
        · match ex with
          | .err => left; rfl
          | .ok rid =>
            dsimp only
            split
            · left; rfl
            · right; rfl

/-- C4 counterexample, refuting both directions of the claim: the
body `{}` is present and is valid structured data — every sub-field
merely missing — yet line 85's `if not data:` treats the empty
(falsy) dictionary as absent and the handler rejects it with 400; and
a MALFORMED body, which the claim says is rejected with 400, instead
makes `request.get_json()` raise, so the generic exception branch of
line 175 answers 500 Internal server error. -/
theorem scan_empty_object_rejected_cex :
    receive_security_scan "s" (some "Bearer s") (ReqBody.json (JVal.obj [])) dt0
        (DbOutcome.conn (ExecOutcome.ok none)) [] =
      ⟨400, errJson "No JSON data provided", [], false⟩ ∧
    receive_security_scan "s" (some "Bearer s") ReqBody.malformed dt0
        (DbOutcome.conn (ExecOutcome.ok none)) [] =
      ⟨500, errJson "Internal server error", [], false⟩ := by
  exact ⟨rfl, rfl⟩

/-- C4 (amended): with a valid token, the ingestion handler returns
400 exactly when the body is absent or parses to a Python-falsy
document (empty object, empty array, `null`, `false`, `0` or the
empty string); a body that is MALFORMED JSON instead makes `get_json`
raise and is answered with the generic internal error (500), before
any storage access; a truthy body with missing individual sub-fields
is never rejected with 400. -/
theorem scan_bad_request_iff (secret : String) (auth : Option String)
    (body : ReqBody) (now : PyDateTime) (dbo : DbOutcome) (db : List ScanRecord)
    (hv : validate_api_key auth secret = true) :
    ((receive_security_scan secret auth body now dbo db).status = 400 ↔
      body = ReqBody.absent ∨ ∃ d, body = ReqBody.json d ∧ d.truthy = false) ∧
    receive_security_scan secret auth ReqBody.malformed now dbo db =
      ⟨500, errJson "Internal server error", db, false⟩ := by
  refine ⟨?_, by unfold receive_security_scan; rw [if_pos hv]⟩
  match body with
  | .absent =>
    constructor
    · intro _
      exact Or.inl rfl
    · intro _
      unfold receive_security_scan
      rw [if_pos hv]
  | .malformed =>
    constructor
    · intro h400
      unfold receive_security_scan at h400
      rw [if_pos hv] at h400
      simp at h400
    · rintro (hn | ⟨d, hd, -⟩)
      · exact absurd hn (by simp)
      · exact absurd hd (by simp)
  | .json data =>
    by_cases ht : data.truthy = true
    · constructor
      · intro h400
        rcases receive_truthy_status secret auth data now dbo db hv ht with h | h <;>
          · rw [h400] at h; exact absurd h (by decide)
      · rintro (hn | ⟨d, hd, hdt⟩)
        · exact absurd hn (by simp)
        · injection hd with hd'
          subst hd'
          rw [ht] at hdt
          exact absurd hdt (by decide)
    · constructor
      · intro _
        refine Or.inr ⟨data, rfl, ?_⟩
        simpa using ht
      · intro _
        unfold receive_security_scan
        rw [if_pos hv]
        dsimp only
        rw [if_neg ht]

/-- C4 witness: an absent body is rejected with 400, and a malformed
body is answered 500 with no storage access. -/
theorem scan_bad_request_iff_witness :
    (receive_security_scan "s" (some "Bearer s") ReqBody.absent dt0
        (DbOutcome.conn (ExecOutcome.ok none)) []).status = 400 ∧
      receive_security_scan "s" (some "Bearer s") ReqBody.malformed dt0
        (DbOutcome.conn (ExecOutcome.ok none)) [] =
      ⟨500, errJson "Internal server error", [], false⟩ :=
  ⟨((scan_bad_request_iff "s" (some "Bearer s") ReqBody.absent dt0
      (DbOutcome.conn (ExecOutcome.ok none)) [] (by decide)).1).mpr (Or.inl rfl),
    (scan_bad_request_iff "s" (some "Bearer s") ReqBody.malformed dt0
      (DbOutcome.conn (ExecOutcome.ok none)) [] (by decide)).2⟩

/-! ### Inversion of a successful ingestion -/

theorem receive_success_inv {secret : String} {auth : Option String}
    {body : ReqBody} {now : PyDateTime} {dbo : DbOutcome} {db : List ScanRecord}
    (h : (receive_security_scan secret auth body now dbo db).status = 201) :
    validate_api_key auth secret = true ∧
    ∃ data sec t a rid r,
      body = ReqBody.json data ∧ data.truthy = true ∧
      extractSections data = .ok sec ∧
      scanTimeOf sec.meta now = .ok t ∧
      evalArgs sec = .ok a ∧
      dbo = DbOutcome.conn (ExecOutcome.ok rid) ∧
      toRecord t a data = some r ∧
      receive_security_scan secret auth body now dbo db =
        ⟨201, successJson rid a.overall_status, db ++ [r], true⟩ := by
  by_cases hv : validate_api_key auth secret = true
  case neg =>
    unfold receive_security_scan at h
    rw [if_neg hv] at h
    simp at h
  case pos =>
    refine ⟨hv, ?_⟩
    match body with
    | .absent =>
      unfold receive_security_scan at h
      rw [if_pos hv] at h
      simp at h
    | .malformed =>
      unfold receive_security_scan at h
      rw [if_pos hv] at h
      simp at h
    | .json data =>
      unfold receive_security_scan at h
      rw [if_pos hv] at h
      dsimp only at h
      by_cases ht : data.truthy = true
      case neg =>
        rw [if_neg ht] at h
        simp at h
      case pos =>
        rw [if_pos ht] at h
        cases hes : extractSections data with
        | error e =>
          rw [hes] at h
          simp at h
        | ok sec =>
          rw [hes] at h
          dsimp only at h
          match dbo with
          | DbOutcome.connErr =>
            simp at h
          | DbOutcome.conn ex =>
            dsimp only at h
            cases hst : scanTimeOf sec.meta now with
            | error e =>
              rw [hst] at h
              simp at h
            | ok t =>
              rw [hst] at h
              dsimp only at h
              cases hea : evalArgs sec with
              | error e =>
                rw [hea] at h
                simp at h
              | ok a =>
                rw [hea] at h
                dsimp only at h
                match ex with
                | ExecOutcome.err =>
                  simp at h
                | ExecOutcome.ok rid =>
                  dsimp only at h
                  cases htr : toRecord t a data with
                  | none =>
                    rw [htr] at h
                    simp at h
                  | some r =>
                    refine ⟨data, sec, t, a, rid, r, rfl, ht, hes, hst, hea, rfl, htr, ?_⟩
                    unfold receive_security_scan
                    rw [if_pos hv]
                    dsimp only
                    rw [if_pos ht, hes]
                    dsimp only
                    rw [hst]
                    dsimp only
                    rw [hea]
                    dsimp only
                    rw [htr]

/-! ### Lemmas: section extraction and the scan time -/

theorem extractSections_obj (kvs : List (String × JVal)) :
    extractSections (.obj kvs) =
      .ok ⟨jGetD (.obj kvs) "scan_metadata" (.obj [])
          , jGetD (.obj kvs) "compliance_status" (.obj [])
          , jGetD (.obj kvs) "scan_results" (.obj [])
          , jGetD (.obj kvs) "evidence_artifacts" (.obj [])⟩ := rfl

theorem extractSections_ok {data : JVal} {sec : Sections}
    (h : extractSections data = .ok sec) :
    ∃ kvs, data = .obj kvs ∧
      sec.meta = jGetD data "scan_metadata" (.obj []) ∧
      sec.cs = jGetD data "compliance_status" (.obj []) ∧
      sec.sr = jGetD data "scan_results" (.obj []) ∧
      sec.ev = jGetD data "evidence_artifacts" (.obj []) := by
  cases data with
  | obj kvs =>
    rw [extractSections_obj] at h
    injection h with h'
    subst h'
    exact ⟨kvs, rfl, rfl, rfl, rfl, rfl⟩
  | null =>
    rw [show extractSections JVal.null = Except.error () from rfl] at h
    exact absurd h (by simp)
  | bool b =>
    rw [show extractSections (JVal.bool b) = Except.error () from rfl] at h
    exact absurd h (by simp)
  | int n =>
    rw [show extractSections (JVal.int n) = Except.error () from rfl] at h
    exact absurd h (by simp)
  | str s =>
    rw [show extractSections (JVal.str s) = Except.error () from rfl] at h
    exact absurd h (by simp)
  | arr xs =>
    rw [show extractSections (JVal.arr xs) = Except.error () from rfl] at h
    exact absurd h (by simp)

theorem scanTimeOf_missing {mkvs : List (String × JVal)} {now : PyDateTime}
    (hmiss : lookupKV "timestamp" mkvs = none) (hnv : now.isValid = true) :
    scanTimeOf (.obj mkvs) now = .ok now := by
  unfold scanTimeOf
  rw [show pyGet (JVal.obj mkvs) "timestamp" (.str (isoformat now)) =
      Except.ok (.str (isoformat now)) from by simp [pyGet, hmiss]]
  dsimp only [asPyStr]
  rw [fromisoformat_replaceZ_isoformat hnv]

theorem scanTimeOf_unparseable {mkvs : List (String × JVal)} {now : PyDateTime}
    {ts : String} (hts : lookupKV "timestamp" mkvs = some (.str ts))
    (hbad : fromisoformat (replaceZ ts) = none) :
    scanTimeOf (.obj mkvs) now = .error () := by
  unfold scanTimeOf
  rw [show pyGet (JVal.obj mkvs) "timestamp" (.str (isoformat now)) =
      Except.ok (.str ts) from by simp [pyGet, hts]]
  dsimp only [asPyStr]
  rw [hbad]

/-! ### Claim C6 -/

/-- C6: on any ingestion request the storage layer would otherwise
accept, a storage-layer error — whether the connection attempt of
line 95 or the insert transaction raises — makes the handler roll
back: the stored state is unchanged, no record persisted, and the
reply is the generic database error, which is distinguishable from
the generic internal-error reply returned on any other unexpected
failure. -/
theorem db_error_rolls_back (secret : String) (auth : Option String)
    (body : ReqBody) (now : PyDateTime) (rid : Option Int) (db : List ScanRecord)
    (h : (receive_security_scan secret auth body now
      (DbOutcome.conn (ExecOutcome.ok rid)) db).status = 201) :
    receive_security_scan secret auth body now DbOutcome.connErr db =
        ⟨500, errJson "Database error occurred", db, true⟩ ∧
      receive_security_scan secret auth body now (DbOutcome.conn ExecOutcome.err) db =
        ⟨500, errJson "Database error occurred", db, true⟩ ∧
      errJson "Database error occurred" ≠ errJson "Internal server error" := by
  obtain ⟨hv, data, sec, t, a, rid', r, hb, ht, hes, hst, hea, -, htr, -⟩ :=
    receive_success_inv h
  subst hb
  refine ⟨?_, ?_, ?_⟩
  · unfold receive_security_scan
    rw [if_pos hv]
    dsimp only
    rw [if_pos ht, hes]
  · unfold receive_security_scan
    rw [if_pos hv]
    dsimp only
    rw [if_pos ht, hes]
    dsimp only
    rw [hst]
    dsimp only
    rw [hea]
  · intro hc
    injection hc with hc'
    simp at hc'

/-- C6 witness: the well-formed payload `pGood` succeeds against a
working store and is rolled back with the database-error reply both
when the connection fails and when the insert fails. -/
theorem db_error_rolls_back_witness :
    receive_security_scan "s" (some "Bearer s") (ReqBody.json pGood) dt0
        DbOutcome.connErr [] =
        ⟨500, errJson "Database error occurred", [], true⟩ ∧
      receive_security_scan "s" (some "Bearer s") (ReqBody.json pGood) dt0
        (DbOutcome.conn ExecOutcome.err) [] =
        ⟨500, errJson "Database error occurred", [], true⟩ ∧
      errJson "Database error occurred" ≠ errJson "Internal server error" :=
  db_error_rolls_back "s" (some "Bearer s") (ReqBody.json pGood) dt0 (some 1) []
    (by decide)

/-! ### Claim C7 -/

theorem counter_eq {sast : JVal} {k : String}
    (hint : match sast with
            | .obj kvs => lookupKV k kvs = none ∨ ∃ n : Int, lookupKV k kvs = some (.int n)
            | _ => True) :
    asPyIntD (jGetD sast k (.int 0)) = counterSpec sast k := by
  match sast with
  | .obj kvs =>
    rcases hint with h | ⟨n, h⟩
    · simp [jGetD, counterSpec, h, asPyIntD]
    · simp [jGetD, counterSpec, h, asPyIntD]
  | .null => rfl
  | .bool b => rfl
  | .int n => rfl
  | .str s => rfl
  | .arr xs => rfl

theorem sastSection_eq {kvs : List (String × JVal)}
    (hsr : isObj (jGetD (JVal.obj kvs) "scan_results" (.obj [])) = true) :
    sastSection (.obj kvs) =
      jGetD (jGetD (.obj kvs) "scan_results" (.obj [])) "sast" (.obj []) := by
  unfold sastSection
  cases hl : (lookupKV "scan_results" kvs).getD (.obj []) with
  | obj skvs =>
    rw [show jGetD (JVal.obj kvs) "scan_results" (.obj []) = .obj skvs from by
      simp [jGetD, hl]]
    dsimp only
    rw [hl]
    rfl
  | null => rw [show jGetD (JVal.obj kvs) "scan_results" (.obj []) =
      (lookupKV "scan_results" kvs).getD (.obj []) from rfl, hl] at hsr; simp [isObj] at hsr
  | bool b => rw [show jGetD (JVal.obj kvs) "scan_results" (.obj []) =
      (lookupKV "scan_results" kvs).getD (.obj []) from rfl, hl] at hsr; simp [isObj] at hsr
  | int n => rw [show jGetD (JVal.obj kvs) "scan_results" (.obj []) =
      (lookupKV "scan_results" kvs).getD (.obj []) from rfl, hl] at hsr; simp [isObj] at hsr
  | str s => rw [show jGetD (JVal.obj kvs) "scan_results" (.obj []) =
      (lookupKV "scan_results" kvs).getD (.obj []) from rfl, hl] at hsr; simp [isObj] at hsr
  | arr xs => rw [show jGetD (JVal.obj kvs) "scan_results" (.obj []) =
      (lookupKV "scan_results" kvs).getD (.obj []) from rfl, hl] at hsr; simp [isObj] at hsr

/-- C7: on every successfully ingested payload whose SAST sub-entries
are counters (absent or integer), the stored record's `sast_findings`
equals the sum of the semgrep, eslint and bandit sub-counters found
under `scan_results.sast`, each missing sub-counter contributing
zero. -/
theorem sast_findings_stored_sum (secret : String) (auth : Option String)
    (data : JVal) (now : PyDateTime) (dbo : DbOutcome) (db : List ScanRecord)
    (h : (receive_security_scan secret auth (ReqBody.json data) now dbo db).status = 201)
    (hint : countersIntLike data) :
    ∃ r, (receive_security_scan secret auth (ReqBody.json data) now dbo db).db
        = db ++ [r] ∧
      r.sast_findings = sastSumSpec data := by
  obtain ⟨hv, data', sec, t, a, rid, r, hb, ht, hes, hst, hea, -, htr, heq⟩ :=
    receive_success_inv h
  injection hb with hb'
  subst hb'
  refine ⟨r, by rw [heq], ?_⟩
  have hr_sast : r.sast_findings = a.sast_findings := by
    unfold toRecord at htr
    split at htr
    · injection htr with htr'
      subst htr'
      rfl
    · exact absurd htr (by simp)
  obtain ⟨kvs, hdata, hmeta, hcs, hsr, hev⟩ := extractSections_ok hes
  subst hdata
  have hok : evalArgsOk sec = true ∧ a = evalArgsVal sec := by
    unfold evalArgs at hea
    split at hea
    · refine ⟨by assumption, ?_⟩
      injection hea with hea'
      exact hea'.symm
    · exact absurd hea (by simp)
  obtain ⟨hok, ha⟩ := hok
  have hsrobj : isObj (jGetD (JVal.obj kvs) "scan_results" (.obj [])) = true := by
    have := hok
    unfold evalArgsOk at this
    simp only [Bool.and_eq_true] at this
    rw [← hsr]
    exact this.1.1.1.1.1.1.1.1.2
  have hsect : sastSection (.obj kvs) = sastObj sec := by
    rw [sastSection_eq hsrobj]
    unfold sastObj
    rw [hsr]
  rw [hr_sast, ha]
  show asPyIntD (jGetD (sastObj sec) "semgrep_findings" (.int 0)) +
        asPyIntD (jGetD (sastObj sec) "eslint_findings" (.int 0)) +
        asPyIntD (jGetD (sastObj sec) "bandit_findings" (.int 0)) =
      sastSumSpec (.obj kvs)
  unfold sastSumSpec
  rw [hsect]
  have h1 := hint "semgrep_findings" (by simp)
  have h2 := hint "eslint_findings" (by simp)
  have h3 := hint "bandit_findings" (by simp)
  rw [hsect] at h1 h2 h3
  rw [counter_eq h1, counter_eq h2, counter_eq h3]

/-- C7 witness: the payload `{scan_results: {sast: {semgrep_findings:
2}}}` stores `sast_findings = 2`. -/
theorem sast_findings_stored_sum_witness :
    (∃ r, (receive_security_scan "s" (some "Bearer s") (ReqBody.json pGood) dt0
        (DbOutcome.conn (ExecOutcome.ok (some 1))) []).db = [] ++ [r] ∧
      r.sast_findings = sastSumSpec pGood) ∧ sastSumSpec pGood = 2 := by
  refine ⟨sast_findings_stored_sum "s" (some "Bearer s") pGood dt0
    (DbOutcome.conn (ExecOutcome.ok (some 1))) [] (by decide) ?_, by decide⟩
  intro k hk
  simp only [List.mem_cons, List.not_mem_nil, or_false] at hk
  rcases hk with rfl | rfl | rfl
  · exact Or.inr ⟨2, rfl⟩
  · exact Or.inl rfl
  · exact Or.inl rfl

/-! ### Claim C3 -/

/-- C3 counterexample: a present but unparseable
`scan_metadata.timestamp` is not replaced by the ingestion time —
`datetime.fromisoformat` raises, the generic exception branch
answers 500, and nothing is stored — where the claim states the
request is still processed successfully. -/
theorem scan_unparseable_ts_cex :
    receive_security_scan "s" (some "Bearer s") (ReqBody.json pBadTs) dt0
        (DbOutcome.conn (ExecOutcome.ok (some 1))) [] =
      ⟨500, errJson "Internal server error", [], true⟩ := by
  rfl

/-- C3 (amended): the handler parses `scan_metadata.timestamp` as
ISO-8601 with a trailing `'Z'` read as UTC; when the field is MISSING
it substitutes the current ingestion time and still processes the
request successfully, the stored record's timestamp then equalling
the ingestion time; but when the field is present and UNPARSEABLE,
and the database connection of line 95 has been obtained, the parse
of line 114 raises and the request fails with the generic internal
error, leaving the store unchanged — while a connection that itself
fails is answered with the generic database error before the
timestamp is ever parsed. -/
theorem scan_timestamp_handling (secret : String) (auth : Option String)
    (data : JVal) (now : PyDateTime) (dbo : DbOutcome) (db : List ScanRecord)
    (hnv : now.isValid = true) :
    (∀ r, timestampField data = none →
      (receive_security_scan secret auth (ReqBody.json data) now dbo db).status = 201 →
      (receive_security_scan secret auth (ReqBody.json data) now dbo db).db = db ++ [r] →
      r.timestamp = now) ∧
    (∀ (ts : String) (ex : ExecOutcome),
      validate_api_key auth secret = true → data.truthy = true →
      timestampField data = some (.str ts) →
      fromisoformat (replaceZ ts) = none →
      receive_security_scan secret auth (ReqBody.json data) now (DbOutcome.conn ex) db =
        ⟨500, errJson "Internal server error", db, true⟩) ∧
    (∀ sec : Sections, validate_api_key auth secret = true → data.truthy = true →
      extractSections data = .ok sec →
      receive_security_scan secret auth (ReqBody.json data) now DbOutcome.connErr db =
        ⟨500, errJson "Database error occurred", db, true⟩) ∧
    (∀ d : PyDateTime, d.isValid = true →
      fromisoformat (replaceZ (String.mk (isoformatL d ++ ['Z']))) = some d) := by
  refine ⟨?_, ?_, ?_, fun d hd => fromisoformat_Z_suffix hd⟩
  · intro r hmiss h201 hdb
    obtain ⟨hv, data', sec, t, a, rid, r', hb, ht, hes, hst, hea, -, htr, heq⟩ :=
      receive_success_inv h201
    injection hb with hb'
    subst hb'
    rw [heq] at hdb
    dsimp only at hdb
    have hr : r' = r := by
      have h2 := List.append_cancel_left hdb
      injection h2
    subst hr
    have hrt : r'.timestamp = t := by
      unfold toRecord at htr
      split at htr
      · injection htr with htr'
        subst htr'
        rfl
      · exact absurd htr (by simp)
    obtain ⟨kvs, hdata, hmeta, -, -, -⟩ := extractSections_ok hes
    subst hdata
    cases hl : (lookupKV "scan_metadata" kvs).getD (.obj []) with
    | obj mkvs =>
      have hmObj : sec.meta = .obj mkvs := by
        rw [hmeta]
        simpa [jGetD] using hl
      have hmiss' : lookupKV "timestamp" mkvs = none := by
        unfold timestampField at hmiss
        dsimp only at hmiss
        rw [hl] at hmiss
        exact hmiss
      rw [hmObj, scanTimeOf_missing hmiss' hnv] at hst
      injection hst with hst'
      rw [hrt, ← hst']
    | null =>
      have hmObj : sec.meta = .null := by
        rw [hmeta]
        simpa [jGetD] using hl
      rw [hmObj] at hst
      rw [show scanTimeOf JVal.null now = Except.error () from rfl] at hst
      exact absurd hst (by simp)
    | bool b =>
      have hmObj : sec.meta = .bool b := by
        rw [hmeta]
        simpa [jGetD] using hl
      rw [hmObj] at hst
      rw [show scanTimeOf (JVal.bool b) now = Except.error () from rfl] at hst
      exact absurd hst (by simp)
    | int n =>
      have hmObj : sec.meta = .int n := by
        rw [hmeta]
        simpa [jGetD] using hl
      rw [hmObj] at hst
      rw [show scanTimeOf (JVal.int n) now = Except.error () from rfl] at hst
      exact absurd hst (by simp)
    | str s =>
      have hmObj : sec.meta = .str s := by
        rw [hmeta]
        simpa [jGetD] using hl
      rw [hmObj] at hst
      rw [show scanTimeOf (JVal.str s) now = Except.error () from rfl] at hst
      exact absurd hst (by simp)
    | arr xs =>
      have hmObj : sec.meta = .arr xs := by
        rw [hmeta]
        simpa [jGetD] using hl
      rw [hmObj] at hst
      rw [show scanTimeOf (JVal.arr xs) now = Except.error () from rfl] at hst
      exact absurd hst (by simp)
  · intro ts ex hv ht hts hbad
    cases data with
    | obj kvs =>
      unfold receive_security_scan
      rw [if_pos hv]
      dsimp only
      rw [if_pos ht, extractSections_obj]
      dsimp only
      cases hl : (lookupKV "scan_metadata" kvs).getD (.obj []) with
      | obj mkvs =>
        have hts' : lookupKV "timestamp" mkvs = some (.str ts) := by
          unfold timestampField at hts
          dsimp only at hts
          rw [hl] at hts
          exact hts
        rw [show jGetD (JVal.obj kvs) "scan_metadata" (.obj []) = .obj mkvs from by
          simp [jGetD, hl]]
        rw [scanTimeOf_unparseable hts' hbad]
      | null =>
        exfalso
        unfold timestampField at hts
        dsimp only at hts
        rw [hl] at hts
        exact absurd hts (by simp)
      | bool b =>
        exfalso
        unfold timestampField at hts
        dsimp only at hts
        rw [hl] at hts
        exact absurd hts (by simp)
      | int n =>
        exfalso
        unfold timestampField at hts
        dsimp only at hts
        rw [hl] at hts
        exact absurd hts (by simp)
      | str s =>
        exfalso
        unfold timestampField at hts
        dsimp only at hts
        rw [hl] at hts
        exact absurd hts (by simp)
      | arr xs =>
        exfalso
        unfold timestampField at hts
        dsimp only at hts
        rw [hl] at hts
        exact absurd hts (by simp)
    | null =>
      exact absurd hts (by simp [timestampField])
    | bool b =>
      exact absurd hts (by simp [timestampField])
    | int n =>
      exact absurd hts (by simp [timestampField])
    | str s =>
      exact absurd hts (by simp [timestampField])
    | arr xs =>
      exact absurd hts (by simp [timestampField])
  · intro sec hv ht hes
    unfold receive_security_scan
    rw [if_pos hv]
    dsimp only
    rw [if_pos ht, hes]

/-- C3 witness: the payload `pGood` has no timestamp; its stored
record carries the ingestion time `dt0`, and a `'Z'`-suffixed
isoformat timestamp parses back to its datetime. -/
theorem scan_timestamp_handling_witness :
    recGood.timestamp = dt0 ∧
      fromisoformat (replaceZ (String.mk (isoformatL dt0 ++ ['Z']))) = some dt0 := by
  have h := scan_timestamp_handling "s" (some "Bearer s") pGood dt0
    (DbOutcome.conn (ExecOutcome.ok (some 1))) [] (by decide)
  exact ⟨h.1 recGood rfl (by decide) rfl, h.2.2.2 dt0 (by decide)⟩

/-! ### Claim C8 -/

theorem roundQ2_zero : roundQ2 0 = 0 := by
  norm_num [roundQ2, roundHalfEven]

/-- C8: the compliance percentage of every generated report equals
the compliant count divided by the total count, times 100, rounded to
2 decimal places, and is exactly 0 whenever the total count is 0; the
zero-total branch is taken before any division is performed.  The
service's float arithmetic is modelled exactly over the rationals,
with `round` as round-half-to-even. -/
theorem compliance_percentage_formula (cutoff : Nat) (appFilter : Option String)
    (days : Int) (gen : PyDateTime) (db : List ScanRecord) :
    (reportOf cutoff appFilter days gen db).summary.compliance_percentage =
      (if (reportOf cutoff appFilter days gen db).summary.total_scans = 0 then 0
       else roundQ2
        ((((reportOf cutoff appFilter days gen db).summary.compliant_scans : ℚ) /
            ((reportOf cutoff appFilter days gen db).summary.total_scans : ℚ)) * 100)) := by
  unfold reportOf
  dsimp only
  by_cases h : (windowed cutoff appFilter db).length = 0
  · rw [if_pos h, if_neg (by omega), roundQ2_zero]
  · rw [if_neg h, if_pos (by omega)]

/-! ### Claim C9 -/

/-- C9: in every generated report, the per-application breakdown is
ordered by record count descending, and the recent non-compliant list
contains only `NON_COMPLIANT` records, holds at most 10 entries and
is ordered by timestamp descending. -/
theorem report_ordering (cutoff : Nat) (appFilter : Option String) (days : Int)
    (gen : PyDateTime) (db : List ScanRecord) :
    ((reportOf cutoff appFilter days gen db).applications.Pairwise
        (fun x y => y.scans ≤ x.scans)) ∧
      (∀ row ∈ (reportOf cutoff appFilter days gen db).recent_non_compliant_scans,
        row.overall_status = "NON_COMPLIANT") ∧
      (reportOf cutoff appFilter days gen db).recent_non_compliant_scans.length ≤ 10 ∧
      ((reportOf cutoff appFilter days gen db).recent_non_compliant_scans.Pairwise
        (fun x y => tkey y.timestamp ≤ tkey x.timestamp)) := by
  refine ⟨?_, ?_, ?_, ?_⟩
  · unfold reportOf
    dsimp only
    unfold appBreakdown
    exact List.sorted_insertionSort scansGe _
  · intro row hrow
    unfold reportOf at hrow
    dsimp only at hrow
    unfold recentNonCompliant at hrow
    simp only [List.mem_map] at hrow
    obtain ⟨r, hr, hrow'⟩ := hrow
    have hmem : r ∈ List.insertionSort tsGe
        ((windowed cutoff appFilter db).filter
          (fun r => decide (r.overall_status = "NON_COMPLIANT"))) :=
      List.mem_of_mem_take hr
    rw [(List.perm_insertionSort tsGe _).mem_iff] at hmem
    have hp := List.of_mem_filter hmem
    subst hrow'
    simpa [mkRecentRow] using hp
  · unfold reportOf
    dsimp only
    unfold recentNonCompliant
    simp [List.length_take]
  · unfold reportOf
    dsimp only
    unfold recentNonCompliant
    rw [List.pairwise_map]
    have hsorted : List.Sorted tsGe (List.insertionSort tsGe
        ((windowed cutoff appFilter db).filter
          (fun r => decide (r.overall_status = "NON_COMPLIANT")))) :=
      List.sorted_insertionSort tsGe _
    exact (hsorted.sublist (List.take_sublist _ _))

/-- C9 witness: the report over the two-record table `dbW`. -/
theorem report_ordering_witness :
    ((reportOf 0 none 30 dt0 dbW).applications.Pairwise
        (fun x y => y.scans ≤ x.scans)) ∧
      (∀ row ∈ (reportOf 0 none 30 dt0 dbW).recent_non_compliant_scans,
        row.overall_status = "NON_COMPLIANT") ∧
      (reportOf 0 none 30 dt0 dbW).recent_non_compliant_scans.length ≤ 10 ∧
      ((reportOf 0 none 30 dt0 dbW).recent_non_compliant_scans.Pairwise
        (fun x y => tkey y.timestamp ≤ tkey x.timestamp)) :=
  report_ordering 0 none 30 dt0 dbW

/-! ### Claim C10 -/

theorem latestScanFor_none_iff {app : String} {db : List ScanRecord} :
    latestScanFor app db = none ↔ ∀ r ∈ db, r.application ≠ app := by
  unfold latestScanFor
  rw [List.head?_eq_none_iff]
  constructor
  · intro h r hr happ
    have hperm := List.perm_insertionSort tsGe
      (db.filter (fun r => decide (r.application = app)))
    rw [h] at hperm
    have hnil := hperm.symm.eq_nil
    rw [List.filter_eq_nil_iff] at hnil
    exact hnil r hr (by simp [happ])
  · intro h
    have hnil : db.filter (fun r => decide (r.application = app)) = [] := by
      rw [List.filter_eq_nil_iff]
      intro r hr
      simp [h r hr]
    rw [hnil]
    rfl

theorem latestScanFor_some {app : String} {db : List ScanRecord} {r : ScanRecord}
    (h : latestScanFor app db = some r) :
    r ∈ db ∧ r.application = app ∧
      ∀ r' ∈ db, r'.application = app → tkey r'.timestamp ≤ tkey r.timestamp := by
  unfold latestScanFor at h
  set fl := db.filter (fun x => decide (x.application = app)) with hfl
  have hperm := List.perm_insertionSort tsGe fl
  have hsorted := List.sorted_insertionSort tsGe fl
  cases hL : List.insertionSort tsGe fl with
  | nil =>
    rw [hL] at h
    exact absurd h (by simp)
  | cons r0 tl =>
    rw [hL] at h
    injection h with h'
    rw [hL] at hperm hsorted
    rw [h'] at hperm hsorted
    have hmemfl : r ∈ fl := hperm.mem_iff.mp (by simp)
    have hmemdb := List.mem_of_mem_filter hmemfl
    have happ : r.application = app := by
      have := List.of_mem_filter hmemfl
      simpa using this
    refine ⟨hmemdb, happ, ?_⟩
    intro r' hr' happ'
    have hmem' : r' ∈ fl := List.mem_filter.mpr ⟨hr', by simp [happ']⟩
    have : r' ∈ r :: tl := hperm.mem_iff.mpr hmem'
    rcases List.mem_cons.mp this with heq | htl
    · rw [heq]
    · exact (List.sorted_cons.mp hsorted).1 r' htl

/-- C10: with a valid token and a working store, the status lookup
answers not-found exactly when no record exists for the requested
application; otherwise it answers 200 with the application name,
current status, last-scan timestamp, total issues and the five
coverage flags of a stored record of that application that is most
recent by timestamp — never an empty or default record. -/
theorem status_lookup_latest (secret : String) (auth : Option String)
    (application : String) (db : List ScanRecord)
    (hv : validate_api_key auth secret = true) :
    ((get_application_status secret auth application false db).status = 404 ↔
        ∀ r ∈ db, r.application ≠ application) ∧
      ((get_application_status secret auth application false db).status = 404 →
        (get_application_status secret auth application false db).body =
          errJson "Application not found") ∧
      ((∃ r ∈ db, r.application = application) →
        ∃ r, r ∈ db ∧ r.application = application ∧
          (∀ r' ∈ db, r'.application = application →
            tkey r'.timestamp ≤ tkey r.timestamp) ∧
          get_application_status secret auth application false db =
            ⟨200, statusJson application r, db, true⟩) := by
  unfold get_application_status
  rw [if_pos hv, if_neg (by simp : ¬ (false = true))]
  cases hL : latestScanFor application db with
  | none =>
    rw [latestScanFor_none_iff] at hL
    refine ⟨by simpa using hL, fun _ => rfl, ?_⟩
    rintro ⟨r, hr, happ⟩
    exact absurd happ (hL r hr)
  | some r =>
    obtain ⟨hmem, happ, hmax⟩ := latestScanFor_some hL
    refine ⟨?_, ?_, ?_⟩
    · simp only [show (200 : Nat) ≠ 404 from by decide]
      constructor
      · intro h
        exact absurd h (by simp)
      · intro h
        exact absurd happ (h r hmem)
    · intro h
      exact absurd h (by simp)
    · intro _
      exact ⟨r, hmem, happ, hmax, rfl⟩

/-- C10 witness: a one-record table answers 200 for its application,
from that record. -/
theorem status_lookup_latest_witness :
    ((get_application_status "s" (some "Bearer s") "a" false [recA]).status = 404 ↔
        ∀ r ∈ [recA], r.application ≠ "a") ∧
      ((get_application_status "s" (some "Bearer s") "a" false [recA]).status = 404 →
        (get_application_status "s" (some "Bearer s") "a" false [recA]).body =
          errJson "Application not found") ∧
      ((∃ r ∈ [recA], r.application = "a") →
        ∃ r, r ∈ [recA] ∧ r.application = "a" ∧
          (∀ r' ∈ [recA], r'.application = "a" →
            tkey r'.timestamp ≤ tkey r.timestamp) ∧
          get_application_status "s" (some "Bearer s") "a" false [recA] =
            ⟨200, statusJson "a" r, [recA], true⟩) :=
  status_lookup_latest "s" (some "Bearer s") "a" [recA] (by decide)
